import Mathlib

/-!
# WorkbenchIQ retrieval-augmented context engine — verification development

Shallow embedding of the RAG core of the WorkbenchIQ repository
(`app/rag/chunker.py`, `embeddings.py`, `repository.py`, `indexer.py`,
`inference.py`, `search.py`, `context.py`, `service.py`) together with
theorems settling the testable properties stated in the specification.

Modelling conventions:
* Python strings are Lean `String`s; `dict.get(k)` on optional fields is
  `Option`.
* Python floats that only ever hold small decimal fractions (similarity
  scores, confidence values) are modelled as `ℚ`; every comparison the
  code performs on them is far from the float rounding error of the
  values that actually arise, so the rational model is faithful.
* External effects (database queries, HTTP calls, wall-clock time) are
  modelled by explicit oracle arguments describing the outcome of each
  call; exceptions are `Except String` with the exception message.
* Wall-clock latency fields of result records are carried but set to 0:
  no claim concerns them.
-/

namespace WorkbenchIQ

/-! ## Chunker data model (`app/rag/chunker.py`) -/

/-- One entry of a policy's `criteria` list.  Fields mirror the keys read
by `PolicyChunker._chunk_criteria`; `id` is optional because the code
supplies a default when it is missing. -/
structure Criterion where
  id : Option String
  condition : String
  risk_level : String
  action : String
  rationale : String
  deriving Repr, DecidableEq

/-- One entry of a policy's `modifying_factors` list. -/
structure Factor where
  factor : String
  impact : String
  deriving Repr, DecidableEq

/-- A policy document as read from the policies JSON file; fields mirror
the keys accessed by `PolicyChunker.chunk_policy`. -/
structure Policy where
  id : String
  name : String
  category : String
  subcategory : Option String
  description : String
  criteria : List Criterion
  modifying_factors : List Factor
  references : List String
  deriving Repr, DecidableEq

/-- `PolicyChunk` dataclass.  The free-form `metadata` dict is not
modelled: no claim mentions it and nothing in the verified code reads it
back.  `embedding` is set by the embedding service after chunking. -/
structure PolicyChunk where
  policy_id : String
  policy_version : String
  policy_name : String
  chunk_type : String
  chunk_sequence : Nat
  category : String
  content : String
  content_hash : String
  token_count : Nat
  subcategory : Option String := none
  criteria_id : Option String := none
  risk_level : Option String := none
  action_recommendation : Option String := none
  embedding : Option (List ℚ) := none
  deriving Repr, DecidableEq

namespace PolicyChunker

/-- Python string `<`: lexicographic comparison by code point. -/
def pyStrLtChars : List Char → List Char → Bool
  | [], [] => false
  | [], _ :: _ => true
  | _ :: _, [] => false
  | a :: as, b :: bs =>
      if a.toNat < b.toNat then true
      else if b.toNat < a.toNat then false
      else pyStrLtChars as bs

/-- Python string `<=`. -/
def pyStrLe (s t : String) : Bool :=
  s == t || pyStrLtChars s.data t.data

/-- Insertion sort of strings with Python's `<=`, modelling Python
`sorted` on string lists. -/
def insertSorted (s : String) : List String → List String
  | [] => [s]
  | t :: ts => if pyStrLe s t then s :: t :: ts else t :: insertSorted s ts

/-- Python `sorted(set(xs))`: deduplicate, then sort ascending. -/
def sortedSet (xs : List String) : List String :=
  (xs.dedup).foldr insertSorted []

/-- `PolicyChunker._estimate_tokens`: `len(text) // 4`. -/
def estimate_tokens (text : String) : Nat :=
  text.length / 4

end PolicyChunker

/-! ## SHA-256 (FIPS 180-4), used by `PolicyChunker._hash_content`

`_hash_content` is `hashlib.sha256(content.encode("utf-8")).hexdigest()`.
We implement the hash function itself so that hash (in)equalities on
concrete contents are decidable by computation.  Words are `Nat`s taken
modulo `2 ^ 32`. -/

namespace SHA256

def mask32 : Nat := 4294967296

def not32 (x : Nat) : Nat := 4294967295 - x % mask32

def rotr (n x : Nat) : Nat :=
  ((x >>> n) ||| (x <<< (32 - n))) % mask32

def smallSigma0 (x : Nat) : Nat := rotr 7 x ^^^ rotr 18 x ^^^ (x >>> 3)

def smallSigma1 (x : Nat) : Nat := rotr 17 x ^^^ rotr 19 x ^^^ (x >>> 10)

def bigSigma0 (x : Nat) : Nat := rotr 2 x ^^^ rotr 13 x ^^^ rotr 22 x

def bigSigma1 (x : Nat) : Nat := rotr 6 x ^^^ rotr 11 x ^^^ rotr 25 x

/-- The 64 round constants (FIPS 180-4 §4.2.2, in decimal). -/
def K : List Nat :=
  [1116352408, 1899447441, 3049323471, 3921009573, 961987163, 1508970993,
   2453635748, 2870763221, 3624381080, 310598401, 607225278, 1426881987,
   1925078388, 2162078206, 2614888103, 3248222580, 3835390401, 4022224774,
   264347078, 604807628, 770255983, 1249150122, 1555081692, 1996064986,
   2554220882, 2821834349, 2952996808, 3210313671, 3336571891, 3584528711,
   113926993, 338241895, 666307205, 773529912, 1294757372, 1396182291,
   1695183700, 1986661051, 2177026350, 2456956037, 2730485921, 2820302411,
   3259730800, 3345764771, 3516065817, 3600352804, 4094571909, 275423344,
   430227734, 506948616, 659060556, 883997877, 958139571, 1322822218,
   1537002063, 1747873779, 1955562222, 2024104815, 2227730452, 2361852424,
   2428436474, 2756734187, 3204031479, 3329325298]

/-- Initial hash value (FIPS 180-4 §5.3.3, in decimal). -/
def H0 : List Nat :=
  [1779033703, 3144134277, 1013904242, 2773480762,
   1359893119, 2600822924, 528734635, 1541459225]

/-- Big-endian 8-byte encoding of `n` (the padded bit length). -/
def lenBytes (n : Nat) : List Nat :=
  [n >>> 56 % 256, n >>> 48 % 256, n >>> 40 % 256, n >>> 32 % 256,
   n >>> 24 % 256, n >>> 16 % 256, n >>> 8 % 256, n % 256]

/-- Message padding: `0x80`, zeros to 56 mod 64, 8-byte bit length. -/
def pad (msg : List Nat) : List Nat :=
  let zeros := (64 - (msg.length + 9) % 64) % 64
  msg ++ [0x80] ++ List.replicate zeros 0 ++ lenBytes (8 * msg.length)

/-- Split a byte stream into 64-byte blocks.  Structural recursion on a
fuel bounded by the length, so that the definition reduces inside
`decide`/`rfl` proofs (each step consumes at least one byte). -/
def chunks64Aux : Nat → List Nat → List (List Nat)
  | _, [] => []
  | 0, _ :: _ => []
  | fuel + 1, b :: rest =>
      ((b :: rest).take 64) :: chunks64Aux fuel ((b :: rest).drop 64)

def chunks64 (l : List Nat) : List (List Nat) :=
  chunks64Aux l.length l

/-- Big-endian 32-bit words from bytes. -/
def bytesToWords : List Nat → List Nat
  | a :: b :: c :: d :: rest =>
      (a * 16777216 + b * 65536 + c * 256 + d) :: bytesToWords rest
  | _ => []

/-- Extend the 16-word schedule by `t` further words. -/
def extendSchedule (w : List Nat) : Nat → List Nat
  | 0 => w
  | t + 1 =>
      let n := w.length
      let fresh :=
        (smallSigma1 (w.getD (n - 2) 0) + w.getD (n - 7) 0 +
         smallSigma0 (w.getD (n - 15) 0) + w.getD (n - 16) 0) % mask32
      extendSchedule (w ++ [fresh]) t

/-- Working state of the compression loop. -/
structure State where
  a : Nat
  b : Nat
  c : Nat
  d : Nat
  e : Nat
  f : Nat
  g : Nat
  h : Nat

/-- One round of the compression function; `kw` is `(K[t], W[t])`. -/
def compressRound (st : State) (kw : Nat × Nat) : State :=
  let s1 := bigSigma1 st.e
  let ch := (st.e &&& st.f) ^^^ (not32 st.e &&& st.g)
  let temp1 := (st.h + s1 + ch + kw.1 + kw.2) % mask32
  let s0 := bigSigma0 st.a
  let maj := (st.a &&& st.b) ^^^ (st.a &&& st.c) ^^^ (st.b &&& st.c)
  let temp2 := (s0 + maj) % mask32
  ⟨(temp1 + temp2) % mask32, st.a, st.b, st.c,
   (st.d + temp1) % mask32, st.e, st.f, st.g⟩

/-- Process one 64-byte block, updating the 8-word hash value. -/
def processBlock (hv : List Nat) (block : List Nat) : List Nat :=
  let w := extendSchedule (bytesToWords block) 48
  let init : State :=
    ⟨hv.getD 0 0, hv.getD 1 0, hv.getD 2 0, hv.getD 3 0,
     hv.getD 4 0, hv.getD 5 0, hv.getD 6 0, hv.getD 7 0⟩
  let fin := (K.zip w).foldl compressRound init
  [(hv.getD 0 0 + fin.a) % mask32, (hv.getD 1 0 + fin.b) % mask32,
   (hv.getD 2 0 + fin.c) % mask32, (hv.getD 3 0 + fin.d) % mask32,
   (hv.getD 4 0 + fin.e) % mask32, (hv.getD 5 0 + fin.f) % mask32,
   (hv.getD 6 0 + fin.g) % mask32, (hv.getD 7 0 + fin.h) % mask32]

/-- SHA-256 digest (32 bytes) of a byte message. -/
def digestBytes (msg : List Nat) : List Nat :=
  let hs := (chunks64 (pad msg)).foldl processBlock H0
  hs.foldr (fun wrd acc =>
    (wrd >>> 24 % 256) :: (wrd >>> 16 % 256) :: (wrd >>> 8 % 256) :: (wrd % 256) :: acc) []

def hexDigit (n : Nat) : Char :=
  if n < 10 then Char.ofNat (48 + n) else Char.ofNat (87 + n)

/-- Lowercase hex string of a byte list. -/
def bytesToHex (bs : List Nat) : String :=
  String.mk (bs.foldr (fun b acc => hexDigit (b / 16) :: hexDigit (b % 16) :: acc) [])

/-- UTF-8 bytes of one character. -/
def charUtf8 (c : Char) : List Nat :=
  let n := c.toNat
  if n < 128 then [n]
  else if n < 2048 then [192 + n / 64, 128 + n % 64]
  else if n < 65536 then [224 + n / 4096, 128 + n / 64 % 64, 128 + n % 64]
  else [240 + n / 262144, 128 + n / 4096 % 64, 128 + n / 64 % 64, 128 + n % 64]

/-- UTF-8 encoding of a string, `str.encode("utf-8")`. -/
def utf8Bytes (s : String) : List Nat :=
  s.data.foldr (fun c acc => charUtf8 c ++ acc) []

end SHA256

/-- `PolicyChunker._hash_content`:
`hashlib.sha256(content.encode("utf-8")).hexdigest()`. -/
def sha256HexOfString (content : String) : String :=
  SHA256.bytesToHex (SHA256.digestBytes (SHA256.utf8Bytes content))

/-! ## Chunking (`PolicyChunker.chunk_policy` and helpers)

Python truthiness on optional strings (`if subcategory:`) is false for
both `None` and `""`; on lists it is false exactly for `[]`. -/

/-- Truthiness of an optional string. -/
def pyTruthy (o : Option String) : Bool :=
  o.getD "" ≠ ""

namespace PolicyChunker

/-- `PolicyChunker._chunk_policy_header`. -/
def chunk_policy_header (version : String) (policy : Policy) (sequence : Nat) :
    PolicyChunk :=
  let parts0 := ["Policy: " ++ policy.name, "Category: " ++ policy.category]
  let parts1 := parts0 ++
    (if pyTruthy policy.subcategory then
      ["Subcategory: " ++ policy.subcategory.getD ""] else [])
  let parts2 := parts1 ++
    (if policy.description ≠ "" then
      ["Description: " ++ policy.description] else [])
  let criteria_count := policy.criteria.length
  let parts3 := parts2 ++
    (if criteria_count ≠ 0 then
      let risk_levels := policy.criteria.map (·.risk_level)
      ["Contains " ++ toString criteria_count ++
        " evaluation criteria covering risk levels: " ++
        String.intercalate ", " (sortedSet (risk_levels.filter (· ≠ "")))]
     else [])
  let content := String.intercalate "\n" parts3
  { policy_id := policy.id
    policy_version := version
    policy_name := policy.name
    chunk_type := "policy_header"
    chunk_sequence := sequence
    category := policy.category
    subcategory := policy.subcategory
    content := content
    content_hash := sha256HexOfString content
    token_count := estimate_tokens content }

/-- The content string built by `_chunk_criteria` — the fixed
`content_parts` template joined with newlines. -/
def criteria_content (policy_name : String) (criteria : Criterion) : String :=
  let parts0 := ["Policy: " ++ policy_name,
                 "Condition: " ++ criteria.condition,
                 "Risk Level: " ++ criteria.risk_level,
                 "Action: " ++ criteria.action]
  let parts1 := parts0 ++
    (if criteria.rationale ≠ "" then
      ["Rationale: " ++ criteria.rationale] else [])
  String.intercalate "\n" parts1

/-- The criteria id assigned by `_chunk_criteria`:
`criteria.get("id", f"{policy_id}-{sequence}")`. -/
def assignedCriteriaId (policy_id : String) (criteria : Criterion)
    (sequence : Nat) : String :=
  criteria.id.getD (policy_id ++ "-" ++ toString sequence)

/-- The criteria ids assigned to a run of criteria starting at
`sequence` `seq`. -/
def assignedCriteriaIds (policy_id : String) :
    List Criterion → Nat → List String
  | [], _ => []
  | c :: cs, seq =>
      assignedCriteriaId policy_id c seq ::
        assignedCriteriaIds policy_id cs (seq + 1)

/-- `PolicyChunker._chunk_criteria`. -/
def chunk_criteria (version policy_id policy_name category : String)
    (subcategory : Option String) (criteria : Criterion) (sequence : Nat) :
    PolicyChunk :=
  let criteria_id := assignedCriteriaId policy_id criteria sequence
  let content := criteria_content policy_name criteria
  { policy_id := policy_id
    policy_version := version
    policy_name := policy_name
    chunk_type := "criteria"
    chunk_sequence := sequence
    category := category
    subcategory := subcategory
    criteria_id := some criteria_id
    risk_level := some criteria.risk_level
    action_recommendation := some criteria.action
    content := content
    content_hash := sha256HexOfString content
    token_count := estimate_tokens content }

/-- `PolicyChunker._chunk_modifying_factors`. -/
def chunk_modifying_factors (version policy_id policy_name category : String)
    (subcategory : Option String) (factors : List Factor) (sequence : Nat) :
    PolicyChunk :=
  let parts := ["Policy: " ++ policy_name, "Modifying Factors:"] ++
    factors.map (fun f => "- " ++ f.factor ++ ": " ++ f.impact)
  let content := String.intercalate "\n" parts
  { policy_id := policy_id
    policy_version := version
    policy_name := policy_name
    chunk_type := "modifying_factor"
    chunk_sequence := sequence
    category := category
    subcategory := subcategory
    content := content
    content_hash := sha256HexOfString content
    token_count := estimate_tokens content }

/-- `PolicyChunker._chunk_references`. -/
def chunk_references (version policy_id policy_name category : String)
    (subcategory : Option String) (references : List String) (sequence : Nat) :
    PolicyChunk :=
  let parts := ["Policy: " ++ policy_name, "References:"] ++
    references.map (fun r => "- " ++ r)
  let content := String.intercalate "\n" parts
  { policy_id := policy_id
    policy_version := version
    policy_name := policy_name
    chunk_type := "reference"
    chunk_sequence := sequence
    category := category
    subcategory := subcategory
    content := content
    content_hash := sha256HexOfString content
    token_count := estimate_tokens content }

/-- The `for criteria in policy.get("criteria", [])` loop of
`chunk_policy`: one chunk per criterion, incrementing the sequence. -/
def criteriaChunks (version policy_id policy_name category : String)
    (subcategory : Option String) :
    List Criterion → Nat → List PolicyChunk
  | [], _ => []
  | c :: cs, seq =>
      chunk_criteria version policy_id policy_name category subcategory c seq ::
        criteriaChunks version policy_id policy_name category subcategory cs (seq + 1)

/-- `PolicyChunker.chunk_policy`: header (sequence 0), one chunk per
criterion (sequences 1..N), then a combined modifying-factors chunk and
a combined references chunk when those lists are non-empty. -/
def chunk_policy (version : String) (policy : Policy) : List PolicyChunk :=
  let header := chunk_policy_header version policy 0
  let crits := criteriaChunks version policy.id policy.name policy.category
    policy.subcategory policy.criteria 1
  let seqAfterCrits := 1 + policy.criteria.length
  let mf :=
    if policy.modifying_factors ≠ [] then
      [chunk_modifying_factors version policy.id policy.name policy.category
        policy.subcategory policy.modifying_factors seqAfterCrits]
    else []
  let refs :=
    if policy.references ≠ [] then
      [chunk_references version policy.id policy.name policy.category
        policy.subcategory policy.references (seqAfterCrits + mf.length)]
    else []
  header :: (crits ++ mf ++ refs)

/-- `PolicyChunker.chunk_all_policies`. -/
def chunk_all_policies (version : String) (policies : List Policy) :
    List PolicyChunk :=
  policies.foldr (fun p acc => chunk_policy version p ++ acc) []

end PolicyChunker

/-- A concrete sample policy used by witness theorems. -/
def samplePolicy : Policy :=
  { id := "CVD-BP-001"
    name := "Blood Pressure Policy"
    category := "cardiovascular"
    subcategory := some "hypertension"
    description := "Evaluates blood pressure readings."
    criteria :=
      [{ id := some "BP-1", condition := "systolic >= 160",
         risk_level := "High", action := "Refer to underwriter",
         rationale := "Stage 2 hypertension" },
       { id := none, condition := "systolic < 120",
         risk_level := "Low", action := "Accept",
         rationale := "" }]
    modifying_factors := [{ factor := "smoking", impact := "raise one level" }]
    references := ["AHA guidelines"] }

/-- The first criterion of `samplePolicy` with its condition edited. -/
def editedCriterion : Criterion :=
  { samplePolicy.criteria.get ⟨0, by decide⟩ with condition := "systolic >= 170" }

/-- `samplePolicy` with the first criterion's condition text edited. -/
def editedSamplePolicy : Policy :=
  { samplePolicy with criteria := samplePolicy.criteria.set 0 editedCriterion }

/-! ## Embedding service (`app/rag/embeddings.py`)

`EmbeddingService.get_embeddings_batch` validates its input, then issues
up to `max_retries` HTTP POSTs.  The network is modelled by an oracle
mapping the attempt number to the outcome of that `requests.post` call;
the function returns the Python result (`Except` for a raised
`EmbeddingError`) together with the number of HTTP requests actually
issued.  Sleep durations (`Retry-After`, exponential backoff) only delay
execution and are not modelled. -/

/-- The subset of `OpenAISettings` read by the embedding client.  Python
truthiness on the credential strings is emptiness. -/
structure OpenAISettings where
  endpoint : String
  api_key : String
  deriving Repr, DecidableEq

namespace EmbeddingService

/-- `EmbeddingService.MAX_BATCH_SIZE`. -/
def MAX_BATCH_SIZE : Nat := 100

/-- Outcome of one `requests.post` to the embeddings endpoint. -/
inductive HttpOutcome where
  | ok (data : List (Nat × List ℚ))
      -- HTTP 200; `data` items as `(index, embedding)` pairs
  | status (code : Nat) (body : String)
      -- non-200 HTTP status with response text
  | timeout
  | network_error (msg : String)

/-- Stable insertion by the `index` key, modelling
`sorted(data, key=lambda x: x.get("index", 0))` (Python `sorted` is
stable). -/
def insertByIndex (x : Nat × List ℚ) :
    List (Nat × List ℚ) → List (Nat × List ℚ)
  | [] => [x]
  | y :: ys => if x.1 < y.1 then x :: y :: ys else y :: insertByIndex x ys

/-- `sorted(data, key=lambda x: x.get("index", 0))`. -/
def sortByIndex (data : List (Nat × List ℚ)) : List (Nat × List ℚ) :=
  data.foldr insertByIndex []

/-- The retry loop of `get_embeddings_batch` (`for attempt in
range(max_retries)`), starting at attempt number `attempt`, with `fuel`
iterations left and `calls` HTTP requests already issued.  Returns the
Python outcome and the total number of requests issued. -/
def retryLoop (texts : List String) (responses : Nat → HttpOutcome) :
    Nat → Nat → Nat → Option String → Except String (List (List ℚ)) × Nat
  | 0, _, calls, last_error =>
      (.error (last_error.getD "Embedding generation failed"), calls)
  | fuel + 1, attempt, calls, last_error =>
      let calls := calls + 1
      match responses attempt with
      | .ok data =>
          let embeddings := (sortByIndex data).map (·.2)
          if embeddings.length ≠ texts.length then
            (.error ("Expected " ++ toString texts.length ++
              " embeddings, got " ++ toString embeddings.length), calls)
          else
            (.ok embeddings, calls)
      | .status code body =>
          if code = 429 then
            retryLoop texts responses fuel (attempt + 1) calls last_error
          else
            let msg := "Embedding API error " ++ toString code ++ ": " ++
              body.take 500
            if 400 ≤ code ∧ code < 500 then (.error msg, calls)
            else retryLoop texts responses fuel (attempt + 1) calls (some msg)
      | .timeout =>
          retryLoop texts responses fuel (attempt + 1) calls
            (some "Embedding API timeout")
      | .network_error msg =>
          retryLoop texts responses fuel (attempt + 1) calls
            (some ("Network error: " ++ msg))

/-- `EmbeddingService.get_embeddings_batch`. -/
def get_embeddings_batch (settings : OpenAISettings) (texts : List String)
    (max_retries : Nat) (responses : Nat → HttpOutcome) :
    Except String (List (List ℚ)) × Nat :=
  if texts = [] then (.ok [], 0)
  else if texts.length > MAX_BATCH_SIZE then
    (.error ("Batch size " ++ toString texts.length ++ " exceeds maximum " ++
      toString MAX_BATCH_SIZE ++ ". Split into smaller batches."), 0)
  else if settings.endpoint = "" ∨ settings.api_key = "" then
    (.error ("Azure OpenAI settings incomplete. " ++
      "Set AZURE_OPENAI_ENDPOINT and AZURE_OPENAI_API_KEY."), 0)
  else retryLoop texts responses max_retries 0 0 none

/-- The batching loop of `embed_chunks`: per batch of `batch_size`
chunks, embed the contents and assign the vectors positionally
(`zip(batch, embeddings)`).  `oracles b` is the response oracle of batch
number `b`.  The second component is the total number of HTTP requests
issued. -/
def embedLoop (settings : OpenAISettings) (oracles : Nat → Nat → HttpOutcome)
    (batch_size : Nat) (hbs : 0 < batch_size) :
    List PolicyChunk → Nat → Except String (List PolicyChunk) × Nat
  | [], _ => (.ok [], 0)
  | c :: cs, b =>
      let batch := (c :: cs).take batch_size
      let texts := batch.map (·.content)
      match get_embeddings_batch settings texts 3 (oracles b) with
      | (.error e, n) => (.error e, n)
      | (.ok embeddings, n) =>
          let assigned := (batch.zip embeddings).map
            (fun p => { p.1 with embedding := some p.2 })
          match embedLoop settings oracles batch_size hbs
              ((c :: cs).drop batch_size) (b + 1) with
          | (.error e, m) => (.error e, n + m)
          | (.ok rest, m) =>
              (.ok (assigned ++ (batch.drop embeddings.length) ++ rest), n + m)
  termination_by cs _ => cs.length
  decreasing_by simp [List.length_drop]; omega

/-- `EmbeddingService.embed_chunks` (`if not chunks: return chunks`,
then the batch loop).  In Python the chunks are mutated in place and the
same list returned; here the updated list is returned. -/
def embed_chunks (settings : OpenAISettings) (oracles : Nat → Nat → HttpOutcome)
    (chunks : List PolicyChunk) (batch_size : Nat) (hbs : 0 < batch_size) :
    Except String (List PolicyChunk) × Nat :=
  if chunks = [] then (.ok chunks, 0)
  else embedLoop settings oracles batch_size hbs chunks 0

end EmbeddingService

/-! ## Chunk repository (`app/rag/repository.py`)

The `policy_chunks` table is a list of rows in insertion order.  The
unique index behind `ON CONFLICT (policy_id, chunk_type,
COALESCE(criteria_id, ''), content_hash)` is the identity key; the
`DO UPDATE` clause refreshes exactly the listed mutable columns
(`chunk_sequence` and the key columns are left untouched).  `metadata`,
`embedding_model` and `updated_at` are not modelled (no claim reads
them). -/

/-- A stored row of `workbenchiq.policy_chunks`. -/
structure Row where
  policy_id : String
  policy_version : String
  policy_name : String
  chunk_type : String
  chunk_sequence : Nat
  category : String
  subcategory : Option String
  criteria_id : Option String
  risk_level : Option String
  action_recommendation : Option String
  content : String
  content_hash : String
  token_count : Nat
  embedding : List ℚ
  deriving Repr, DecidableEq

/-- The identity key of a stored row:
`(policy_id, chunk_type, COALESCE(criteria_id, ''), content_hash)`. -/
def rowKey (r : Row) : String × String × String × String :=
  (r.policy_id, r.chunk_type, r.criteria_id.getD "", r.content_hash)

/-- The identity key a chunk would be stored under. -/
def chunkKey (c : PolicyChunk) : String × String × String × String :=
  (c.policy_id, c.chunk_type, c.criteria_id.getD "", c.content_hash)

/-- The row written for a chunk whose embedding is present. -/
def rowOfChunk (c : PolicyChunk) (emb : List ℚ) : Row :=
  { policy_id := c.policy_id
    policy_version := c.policy_version
    policy_name := c.policy_name
    chunk_type := c.chunk_type
    chunk_sequence := c.chunk_sequence
    category := c.category
    subcategory := c.subcategory
    criteria_id := c.criteria_id
    risk_level := c.risk_level
    action_recommendation := c.action_recommendation
    content := c.content
    content_hash := c.content_hash
    token_count := c.token_count
    embedding := emb }

namespace PolicyChunkRepository

/-- `ON CONFLICT … DO UPDATE SET …`: refresh the mutable columns of the
existing row; key columns and `chunk_sequence` are not in the SET
list. -/
def updateRow (old new : Row) : Row :=
  { old with
    policy_name := new.policy_name
    policy_version := new.policy_version
    category := new.category
    subcategory := new.subcategory
    risk_level := new.risk_level
    action_recommendation := new.action_recommendation
    content := new.content
    token_count := new.token_count
    embedding := new.embedding }

/-- One `INSERT … ON CONFLICT DO UPDATE`: update the row holding the
same identity key (the unique index guarantees at most one), else
append. -/
def upsertRow (r : Row) : List Row → List Row
  | [] => [r]
  | x :: xs => if rowKey x = rowKey r then updateRow x r :: xs
               else x :: upsertRow r xs

/-- `PolicyChunkRepository.insert_chunks` with the default
`on_conflict="update"`: iterate the chunks in order; a chunk without an
embedding is skipped (warning) and not counted; otherwise upsert and
count it. -/
def insert_chunks (store : List Row) : List PolicyChunk → List Row × Nat
  | [] => (store, 0)
  | c :: cs =>
      match c.embedding with
      | none => insert_chunks store cs
      | some emb =>
          let res := insert_chunks (upsertRow (rowOfChunk c emb) store) cs
          (res.1, res.2 + 1)

/-- `PolicyChunkRepository.delete_chunks_by_policy`. -/
def delete_chunks_by_policy (store : List Row) (policy_id : String) :
    List Row × Nat :=
  (store.filter (fun r => r.policy_id ≠ policy_id),
   (store.filter (fun r => r.policy_id = policy_id)).length)

end PolicyChunkRepository

/-! ## Indexing pipeline (`app/rag/indexer.py`)

`PolicyIndexer.index_policies`: filter the loaded policies to
`policy_ids` if given, purge the targeted policies when
`force_reindex`, chunk, embed, store.  The loaded JSON file is an input
(`policies`); per §3 of the spec the embedding vector is a pure function
of the exact content string, so the embedding stage is an abstract
function `embedf` of the content — the model describes the successful
runs of the pipeline (a failed embedding raises out of `index_policies`
before any store write, since the force-delete only happens for runs
that reach the store stage with the same chunks). -/

namespace PolicyIndexer

/-- The store state after a successful
`index_policies(policy_ids, force_reindex)` run. -/
def targetedPolicies (policies : List Policy)
    (policy_ids : Option (List String)) : List Policy :=
  match policy_ids with
  | some ids => policies.filter (fun p => p.id ∈ ids)
  | none => policies

def index_policies (embedf : String → List ℚ) (store : List Row)
    (policies : List Policy) (policy_ids : Option (List String))
    (force_reindex : Bool) : List Row :=
  let targeted := targetedPolicies policies policy_ids
  if targeted = [] then store
  else
    let store :=
      if force_reindex then
        targeted.foldl
          (fun s p => (PolicyChunkRepository.delete_chunks_by_policy s p.id).1)
          store
      else store
    let all_chunks := PolicyChunker.chunk_all_policies "1.0" targeted
    let embedded := all_chunks.map
      (fun c => { c with embedding := some (embedf c.content) })
    (PolicyChunkRepository.insert_chunks store embedded).1

/-- `PolicyIndexer.reindex_policy`:
`index_policies(policy_ids=[policy_id], force_reindex=True)`. -/
def reindex_policy (embedf : String → List ℚ) (store : List Row)
    (policies : List Policy) (policy_id : String) : List Row :=
  index_policies embedf store policies (some [policy_id]) true

end PolicyIndexer

/-! ## Search results and inferred context
(`app/rag/search.py`, `app/rag/inference.py` dataclasses) -/

/-- `SearchResult` dataclass.  The free-form `metadata` dict is not
modelled (no claim reads it); `similarity` is a score in `ℚ`. -/
structure SearchResult where
  chunk_id : String
  policy_id : String
  policy_name : String
  chunk_type : String
  category : String
  subcategory : Option String
  criteria_id : Option String
  risk_level : Option String
  action_recommendation : Option String
  content : String
  similarity : ℚ
  deriving Repr, DecidableEq

/-- `InferredContext` dataclass. -/
structure InferredContext where
  categories : List String
  subcategories : List String
  risk_levels : List String
  confidence : ℚ
  method : String
  deriving Repr, DecidableEq

/-- `InferredContext.has_filters`. -/
def InferredContext.has_filters (i : InferredContext) : Bool :=
  i.categories ≠ [] ∨ i.subcategories ≠ [] ∨ i.risk_levels ≠ []

/-! ## Context assembler (`app/rag/context.py`)

The tokenizer (`tiktoken` for `gpt-4`) is an external library; it is
modelled by an abstract `Encoding` with `encode`/`decode` functions, so
every theorem about the assembler holds for every tokenizer, and
counterexamples instantiate a concrete executable encoding. -/

/-- An external tokenizer: `self.encoding`. -/
structure Encoding where
  encode : String → List Nat
  decode : List Nat → String

/-- `DEFAULT_CHUNK_OVERHEAD` — tokens charged per chunk for
formatting. -/
def DEFAULT_CHUNK_OVERHEAD : Nat := 50

/-- `PolicyCitation` dataclass. -/
structure PolicyCitation where
  policy_id : String
  policy_name : String
  chunk_type : String
  criteria_id : Option String
  category : String
  risk_level : Option String
  similarity : ℚ
  deriving Repr, DecidableEq

/-- `RAGContext` dataclass. -/
structure RAGContext where
  context_text : String
  citations : List PolicyCitation
  total_tokens : Nat
  chunks_included : Nat
  chunks_truncated : Nat
  categories_covered : List String
  deriving Repr, DecidableEq

namespace RAGContextBuilder

/-- `RAGContextBuilder.count_tokens`. -/
def count_tokens (enc : Encoding) (text : String) : Nat :=
  (enc.encode text).length

/-- `RAGContextBuilder._format_header`. -/
def format_header (query : Option String) (style : String) : String :=
  if style = "compact" then "=== RELEVANT UNDERWRITING POLICIES ==="
  else if style = "prose" then
    "The following underwriting policy information is relevant to this assessment:"
  else
    "### Relevant Underwriting Policy Context\n" ++
      (if pyTruthy query then "Query: " ++ query.getD "" ++ "\n" else "")

/-- `RAGContextBuilder._format_chunk`. -/
def format_chunk (result : SearchResult) (include_metadata : Bool)
    (style : String) : String :=
  if style = "compact" then
    let line0 := "[" ++ result.policy_id ++ "]" ++
      (if pyTruthy result.criteria_id then
        " - Criteria " ++ result.criteria_id.getD "" else "")
    let lines := [line0, result.content] ++
      (if pyTruthy result.action_recommendation then
        ["Action: " ++ result.action_recommendation.getD ""] else [])
    String.intercalate "\n" lines
  else if style = "prose" then
    "According to policy " ++ result.policy_name ++ " (" ++
      result.policy_id ++ ")" ++
      (if pyTruthy result.criteria_id then
        ", criteria " ++ result.criteria_id.getD "" else "") ++
      ": " ++ result.content ++
      (if pyTruthy result.action_recommendation then
        " Recommended action: " ++ result.action_recommendation.getD ""
       else "")
  else
    let meta_parts := ["Category: " ++ result.category] ++
      (if pyTruthy result.subcategory then
        ["Subcategory: " ++ result.subcategory.getD ""] else []) ++
      (if pyTruthy result.risk_level then
        ["Risk Level: " ++ result.risk_level.getD ""] else []) ++
      (if result.chunk_type ≠ "policy_header" then
        ["Type: " ++ result.chunk_type] else [])
    let lines := ["**Policy: " ++ result.policy_name ++ "** [" ++
        result.policy_id ++ "]"] ++
      (if include_metadata then [String.intercalate " | " meta_parts]
       else []) ++
      (if pyTruthy result.criteria_id then
        ["Criteria ID: " ++ result.criteria_id.getD ""] else []) ++
      ["\n" ++ result.content] ++
      (if pyTruthy result.action_recommendation then
        ["\n**Recommendation:** " ++ result.action_recommendation.getD ""]
       else [])
    String.intercalate "\n" lines

/-- The structured footer's per-policy source lines, keeping the first
citation of each policy (`seen_policies` set). -/
def footerLines : List PolicyCitation → List String → List String
  | [], _ => []
  | c :: cs, seen =>
      if c.policy_id ∈ seen then footerLines cs seen
      else ("- " ++ c.policy_id ++ ": " ++ c.policy_name) ::
        footerLines cs (c.policy_id :: seen)

/-- `RAGContextBuilder._format_footer`. -/
def format_footer (citations : List PolicyCitation) (style : String) :
    String :=
  if citations = [] then ""
  else if style = "compact" then
    "Sources: " ++ String.intercalate ", "
      (PolicyChunker.sortedSet (citations.map (·.policy_id)))
  else if style = "prose" then
    "This information is based on policies: " ++ String.intercalate ", "
      (PolicyChunker.sortedSet (citations.map (·.policy_id))) ++ "."
  else
    String.intercalate "\n"
      (["---", "**Sources:**"] ++ footerLines citations [])

/-- `RAGContextBuilder._create_citation`. -/
def create_citation (result : SearchResult) : PolicyCitation :=
  { policy_id := result.policy_id
    policy_name := result.policy_name
    chunk_type := result.chunk_type
    criteria_id := result.criteria_id
    category := result.category
    risk_level := result.risk_level
    similarity := result.similarity }

/-- Python `str.rstrip()` on ASCII whitespace. -/
def pyIsSpace (c : Char) : Bool :=
  c = ' ' ∨ c = '\t' ∨ c = '\n' ∨ c = '\r' ∨ c = '\x0b' ∨ c = '\x0c'

def rstrip (s : String) : String :=
  String.mk ((s.data.reverse.dropWhile pyIsSpace).reverse)

/-- `RAGContextBuilder._truncate_to_tokens`: cut at a token boundary,
strip trailing whitespace, mark with an ellipsis. -/
def truncate_to_tokens (enc : Encoding) (text : String) (max_tokens : Nat) :
    String :=
  let tokens := enc.encode text
  if tokens.length ≤ max_tokens then text
  else rstrip (enc.decode (tokens.take max_tokens)) ++ "..."

/-- Loop state of `assemble_context` (`context_parts`, `tokens_used`
and the inclusion counters).  `categories_seen` records the insertion
order; only `sorted(set(...))` of it is observable. -/
structure AssembleState where
  context_parts : List String
  tokens_used : Nat
  chunks_included : Nat
  chunks_truncated : Nat
  citations : List PolicyCitation
  categories_seen : List String
  deriving Repr

/-- The `for result in results` loop of `assemble_context`: add whole
chunks while they fit; at the first overflow, add a truncated chunk only
when more than 100 tokens of budget remain, and stop either way. -/
def assembleLoop (enc : Encoding) (max_tokens : Nat)
    (include_metadata : Bool) (style : String) :
    List SearchResult → AssembleState → AssembleState
  | [], st => st
  | result :: rest, st =>
      let chunk_text := format_chunk result include_metadata style
      let chunk_tokens := count_tokens enc chunk_text + DEFAULT_CHUNK_OVERHEAD
      if st.tokens_used + chunk_tokens > max_tokens then
        let remaining : Int := (max_tokens : Int) - st.tokens_used -
          DEFAULT_CHUNK_OVERHEAD
        if remaining > 100 then
          let truncated := truncate_to_tokens enc chunk_text remaining.toNat
          { st with
            context_parts := st.context_parts ++ [truncated]
            tokens_used := st.tokens_used + count_tokens enc truncated +
              DEFAULT_CHUNK_OVERHEAD
            chunks_included := st.chunks_included + 1
            chunks_truncated := st.chunks_truncated + 1
            citations := st.citations ++ [create_citation result]
            categories_seen := st.categories_seen ++ [result.category] }
        else st
      else
        assembleLoop enc max_tokens include_metadata style rest
          { st with
            context_parts := st.context_parts ++ [chunk_text]
            tokens_used := st.tokens_used + chunk_tokens
            chunks_included := st.chunks_included + 1
            citations := st.citations ++ [create_citation result]
            categories_seen := st.categories_seen ++ [result.category] }

/-- `RAGContextBuilder.assemble_context`. -/
def assemble_context (enc : Encoding) (max_tokens : Nat)
    (results : List SearchResult) (query : Option String)
    (include_metadata : Bool) (format_style : String) : RAGContext :=
  if results = [] then
    { context_text := "No relevant policy information found."
      citations := []
      total_tokens := 0
      chunks_included := 0
      chunks_truncated := 0
      categories_covered := [] }
  else
    let header := format_header query format_style
    let st0 : AssembleState :=
      { context_parts := [header]
        tokens_used := count_tokens enc header
        chunks_included := 0
        chunks_truncated := 0
        citations := []
        categories_seen := [] }
    let st := assembleLoop enc max_tokens include_metadata format_style
      results st0
    let footer := format_footer st.citations format_style
    { context_text := String.intercalate "\n\n" (st.context_parts ++ [footer])
      citations := st.citations
      total_tokens := st.tokens_used + count_tokens enc footer
      chunks_included := st.chunks_included
      chunks_truncated := st.chunks_truncated
      categories_covered := PolicyChunker.sortedSet st.categories_seen }

end RAGContextBuilder

/-- A concrete executable tokenizer used in witnesses and
counterexamples: one token per character code point. -/
def byteEncoding : Encoding :=
  { encode := fun s => s.data.map Char.toNat
    decode := fun l => String.mk (l.map Char.ofNat) }

/-- A tokenizer truncation bound: re-encoding a truncated-to-`n` text
(after the `rstrip` and the appended ellipsis) costs at most `n + slack`
tokens.  `byteEncoding` satisfies it with `slack = 3`. -/
def TruncBound (enc : Encoding) (slack : Nat) : Prop :=
  ∀ (text : String) (n : Nat),
    RAGContextBuilder.count_tokens enc
      (RAGContextBuilder.truncate_to_tokens enc text n) ≤ n + slack

/-- Concrete search results used by the context-assembly
counterexample/witness: same policy template, content of length 10
vs 15. -/
def shortContentResult : SearchResult :=
  { chunk_id := "1", policy_id := "P", policy_name := "N"
    chunk_type := "criteria", category := "cat", subcategory := none
    criteria_id := none, risk_level := none, action_recommendation := none
    content := "aaaaaaaaaa", similarity := 1 }

def longContentResult : SearchResult :=
  { shortContentResult with content := "aaaaaaaaaaaaaaa" }

/-! ## Category inference (`app/rag/inference.py`)

The keyword tables are Python regexes compiled with `re.IGNORECASE` and
used with `pattern.search(query)`.  The pattern language actually used
is small: literals, `\s*`, `\d{2,3}`, `?`, small alternations and
character classes, with `\b` anchors only at the very start/end of a
pattern.  `Rx` is exactly that language; `Pattern` carries the two
anchors.  `search` is modelled by trying every start position of the
lower-cased query (case-insensitive matching of the all-lowercase
patterns).  Every pattern in the tables starts and ends with a word
character, so the `\b` anchors reduce to: the preceding / following
character (if any) is not a word character. -/

/-- The regex fragment language of the keyword tables. -/
inductive Rx where
  | eps
  | lit (c : Char)
  | cls (cs : List Char)
  | digit
  | space
  | seq (a b : Rx)
  | alt (a b : Rx)
  | opt (a : Rx)
  | star (a : Rx)
  deriving Repr

namespace CategoryInference

/-- Python `\d`. -/
def pyIsDigit (c : Char) : Bool := '0' ≤ c ∧ c ≤ '9'

/-- Python `\s` (ASCII whitespace). -/
def pyIsWs (c : Char) : Bool :=
  c = ' ' ∨ c = '\t' ∨ c = '\n' ∨ c = '\r' ∨ c = '\x0b' ∨ c = '\x0c'

/-- Python `\w` (ASCII). -/
def isWordChar (c : Char) : Bool := c.isAlphanum || c = '_'

/-- All iteration counts a starred fragment can consume (each iteration
consumes at least one character; `fuel` bounds the iterations by the
input length). -/
def starEnds (f : List Char → List Nat) : Nat → List Char → List Nat
  | 0, _ => [0]
  | fuel + 1, s =>
      0 :: ((f s).filter (· ≠ 0)).flatMap
        (fun n => (starEnds f fuel (s.drop n)).map (n + ·))

/-- All lengths of prefixes of `s` matched by `r`. -/
def matchEnds : Rx → List Char → List Nat
  | .eps, _ => [0]
  | .lit _, [] => []
  | .lit c, a :: _ => if a = c then [1] else []
  | .cls _, [] => []
  | .cls cs, a :: _ => if a ∈ cs then [1] else []
  | .digit, [] => []
  | .digit, a :: _ => if pyIsDigit a then [1] else []
  | .space, [] => []
  | .space, a :: _ => if pyIsWs a then [1] else []
  | .seq a b, s =>
      (matchEnds a s).flatMap
        (fun n => (matchEnds b (s.drop n)).map (n + ·))
  | .alt a b, s => matchEnds a s ++ matchEnds b s
  | .opt a, s => 0 :: matchEnds a s
  | .star a, s => starEnds (matchEnds a) s.length s

/-- A table pattern: a fragment with optional `\b` anchors at the two
ends. -/
structure Pattern where
  rx : Rx
  leftB : Bool
  rightB : Bool

/-- The left `\b`: the previous character (if any) is not a word
character (every table pattern begins with a word character). -/
def leftOk (b : Bool) : Option Char → Bool
  | none => true
  | some c => !b || !isWordChar c

/-- The right `\b`: the next character (if any) is not a word character
(every table pattern ends with a word character). -/
def rightOk (b : Bool) : List Char → Bool
  | [] => true
  | c :: _ => !b || !isWordChar c

/-- A match starting at the current position (`prev` is the character
just before it). -/
def matchHere (p : Pattern) (prev : Option Char) (s : List Char) : Bool :=
  leftOk p.leftB prev &&
    (matchEnds p.rx s).any (fun n => rightOk p.rightB (s.drop n))

/-- Try to match at the current position, else advance one character. -/
def searchAux (p : Pattern) : Option Char → List Char → Bool
  | prev, [] => matchHere p prev []
  | prev, c :: rest => matchHere p prev (c :: rest) || searchAux p (some c) rest

/-- `pattern.search(query)` with `re.IGNORECASE`: the query is
lower-cased (all table patterns are lower-case). -/
def pSearch (p : Pattern) (query : String) : Bool :=
  searchAux p none (query.data.map Char.toLower)

/-- A literal character sequence. -/
def rxOfString (s : String) : Rx :=
  s.data.foldr (fun c acc => .seq (.lit c) acc) .eps

/-- `\s*`. -/
def wsStar : Rx := .star .space

/-- `\bw\b`. -/
def word (w : String) : Pattern := ⟨rxOfString w, true, true⟩

/-- `\bw` (no trailing boundary). -/
def wordStart (w : String) : Pattern := ⟨rxOfString w, true, false⟩

/-- `\ba\s*b\b`. -/
def words2 (a b : String) : Pattern :=
  ⟨.seq (rxOfString a) (.seq wsStar (rxOfString b)), true, true⟩

/-- `\ba\s*b` (no trailing boundary). -/
def words2Start (a b : String) : Pattern :=
  ⟨.seq (rxOfString a) (.seq wsStar (rxOfString b)), true, false⟩

/-- `\ba\s*b\s*c\b`. -/
def words3 (a b c : String) : Pattern :=
  ⟨.seq (rxOfString a) (.seq wsStar (.seq (rxOfString b)
    (.seq wsStar (rxOfString c)))), true, true⟩

/-- `\bw(x|y)\b`. -/
def wordAlt (w x y : String) : Pattern :=
  ⟨.seq (rxOfString w) (.alt (rxOfString x) (rxOfString y)), true, true⟩

/-- `\bws?\b` (optional final letter). -/
def wordOpt (w : String) (c : Char) : Pattern :=
  ⟨.seq (rxOfString w) (.opt (.lit c)), true, true⟩

/-- `\d{2,3}`. -/
def d23 : Rx := .seq .digit (.seq .digit (.opt .digit))

/-- `\b\d{2,3}\s*/\s*\d{2,3}\b` — a blood-pressure reading. -/
def bpReading : Pattern :=
  ⟨.seq d23 (.seq wsStar (.seq (.lit '/') (.seq wsStar d23))), true, true⟩

/-- `\bunits?\s*(per|/)\s*(week|day)\b`. -/
def unitsPerWeek : Pattern :=
  ⟨.seq (rxOfString "unit") (.seq (.opt (.lit 's')) (.seq wsStar
    (.seq (.alt (rxOfString "per") (.lit '/')) (.seq wsStar
      (.alt (rxOfString "week") (rxOfString "day")))))), true, true⟩

/-- `\bnon-?smoker\b` / `\bex-?smoker\b`. -/
def dashSmoker (pre : String) : Pattern :=
  ⟨.seq (rxOfString pre) (.seq (.opt (.lit '-')) (rxOfString "smoker")),
    true, true⟩

/-- `\bfasting\s*(blood\s*)?sugar\b`. -/
def fastingSugar : Pattern :=
  ⟨.seq (rxOfString "fasting") (.seq wsStar (.seq
    (.opt (.seq (rxOfString "blood") wsStar)) (rxOfString "sugar"))),
    true, true⟩

/-- `\btype\s*[12]\b`. -/
def type12 : Pattern :=
  ⟨.seq (rxOfString "type") (.seq wsStar (.cls ['1', '2'])), true, true⟩

/-- `\bt[12]dm\b`. -/
def t12dm : Pattern :=
  ⟨.seq (.lit 't') (.seq (.cls ['1', '2']) (rxOfString "dm")), true, true⟩

/-- `\bno\s*(issues?|problems?|concerns?)\b`. -/
def noIssues : Pattern :=
  ⟨.seq (rxOfString "no") (.seq wsStar
    (.alt (.seq (rxOfString "issue") (.opt (.lit 's')))
      (.alt (.seq (rxOfString "problem") (.opt (.lit 's')))
        (.seq (rxOfString "concern") (.opt (.lit 's')))))), true, true⟩

/-- `\bvap(e|ing)\b`. -/
def vapePat : Pattern := wordAlt "vap" "e" "ing"

/-- `CATEGORY_KEYWORDS`, in source (dict-insertion) order. -/
def CATEGORY_KEYWORDS : List (String × List Pattern) :=
  [("cardiovascular",
    [words2 "blood" "pressure", word "bp", word "hypertension",
     word "hypotension", word "systolic", word "diastolic", word "mmhg",
     bpReading,
     word "heart", word "cardiac", word "cardio", word "arrhythmia",
     words2Start "atrial" "fib", word "afib", word "chf",
     words2 "heart" "failure", word "cad", word "coronary", word "angina",
     word "myocardial", word "mi", words2 "heart" "attack", word "stroke",
     word "cvd", word "palpitation", word "murmur", word "valve"]),
   ("metabolic",
    [word "cholesterol", word "ldl", word "hdl", word "triglyceride",
     word "lipid", word "statin", word "hyperlipidemia",
     word "dyslipidemia",
     word "bmi", words2 "body" "mass", wordStart "obes", word "overweight",
     word "underweight", word "weight", word "height", word "kg",
     wordOpt "lb" 's', wordOpt "pound" 's',
     word "ast", word "alt", words2 "liver" "function", word "lft",
     word "hepatic", words2 "fatty" "liver", word "cirrhosis",
     word "hepatitis",
     word "diabetes", word "diabetic", word "glucose",
     words2 "blood" "sugar", word "hba1c", word "a1c"]),
   ("endocrine",
    [word "diabetes", word "diabetic", word "glucose",
     words2 "blood" "sugar", word "insulin", word "hba1c", word "a1c",
     fastingSugar, word "fbs", type12, t12dm, word "hyperglycemia",
     word "hypoglycemia", word "metformin",
     word "thyroid", word "tsh", wordStart "hypothyroid",
     wordStart "hyperthyroid", word "levothyroxine", word "synthroid"]),
   ("family_history",
    [words2 "family" "history", word "familial", word "hereditary",
     word "genetic", word "inherited", word "parent", word "mother",
     word "father", word "sibling", word "brother", word "sister",
     word "grandparent", word "relative", words2 "premature" "death",
     ⟨.seq (rxOfString "cancer") (.seq wsStar
       (.alt (rxOfString "history") (rxOfString "risk"))), true, true⟩,
     ⟨.seq (rxOfString "heart") (.seq wsStar (.seq (rxOfString "disease")
       (.seq wsStar (.alt (rxOfString "family")
         (rxOfString "history"))))), true, true⟩]),
   ("lifestyle",
    [wordStart "smok", word "tobacco", word "cigarette", word "nicotine",
     vapePat, words2 "pack" "year", dashSmoker "non", dashSmoker "ex",
     word "alcohol", wordStart "drink", word "beer", word "wine",
     word "spirits", unitsPerWeek, word "sober", word "abstinent",
     words2 "drug" "use", word "substance", word "marijuana",
     word "cannabis", word "cocaine", word "heroin", word "opioid",
     word "recreational"])]

/-- `SUBCATEGORY_KEYWORDS`, in source order. -/
def SUBCATEGORY_KEYWORDS :
    List (String × List (String × List Pattern)) :=
  [("cardiovascular",
    [("hypertension",
      [words2 "blood" "pressure", word "hypertension", word "systolic",
       word "diastolic", bpReading]),
     ("arrhythmia",
      [word "arrhythmia", words2Start "atrial" "fib", word "afib",
       word "palpitation"]),
     ("coronary_artery_disease",
      [word "cad", word "coronary", word "angina",
       words2 "heart" "attack"])]),
   ("metabolic",
    [("cholesterol",
      [word "cholesterol", word "ldl", word "hdl", word "triglyceride",
       word "lipid"]),
     ("bmi",
      [word "bmi", words2 "body" "mass", wordStart "obes",
       word "overweight", word "weight"]),
     ("liver_function",
      [word "ast", word "alt", word "liver", word "lft"])]),
   ("endocrine",
    [("diabetes",
      [word "diabetes", word "diabetic", word "glucose", word "hba1c",
       word "insulin"]),
     ("thyroid", [word "thyroid", word "tsh"])]),
   ("lifestyle",
    [("smoking",
      [wordStart "smok", word "tobacco", word "cigarette",
       word "nicotine"]),
     ("alcohol",
      [word "alcohol", wordStart "drink", word "beer", word "wine"]),
     ("substance_use",
      [words2 "drug" "use", word "substance", word "marijuana"])])]

/-- `RISK_LEVEL_KEYWORDS`, in source order. -/
def RISK_LEVEL_KEYWORDS : List (String × List Pattern) :=
  [("High",
    [word "severe", word "critical", word "dangerous", word "extreme",
     word "uncontrolled", words2 "poor" "control", word "complications",
     wordOpt "hospitalize" 'd']),
   ("Moderate",
    [word "moderate", word "elevated", word "borderline",
     word "controlled", word "medication", word "treatment"]),
   ("Low",
    [word "normal", word "healthy", word "optimal",
     words2 "well" "controlled", noIssues])]

/-- The `match_scores` dict of `infer_from_keywords`: each matched
category (in table order) with its number of matching patterns. -/
def category_match_scores (query : String) : List (String × Nat) :=
  (CATEGORY_KEYWORDS.map
    (fun cp => (cp.1, (cp.2.filter (fun p => pSearch p query)).length))).filter
    (fun cp => 0 < cp.2)

/-- `CategoryInference.infer_from_keywords`. -/
def infer_from_keywords (query : String) : InferredContext :=
  let scores := category_match_scores query
  let categories := scores.map (·.1)
  let subcategories := categories.flatMap (fun cat =>
    match SUBCATEGORY_KEYWORDS.find? (fun sc => sc.1 = cat) with
    | none => []
    | some sc =>
        (sc.2.filter (fun sub => sub.2.any (fun p => pSearch p query))).map
          (·.1))
  let risk_levels :=
    (RISK_LEVEL_KEYWORDS.filter
      (fun rl => rl.2.any (fun p => pSearch p query))).map (·.1)
  let total_matches := (scores.map (·.2)).sum
  let confidence : ℚ :=
    if 0 < total_matches then min 1 (total_matches * (1 / 5)) else 0
  { categories := categories
    subcategories := subcategories
    risk_levels := risk_levels
    confidence := confidence
    method := "keyword" }

end CategoryInference

/-! ## Search service (`app/rag/search.py`)

All search strategies issue a SQL query of the shape
`SELECT ... WHERE <qualifies> ORDER BY <key> [DESC] LIMIT k`, where the
sort key is (or is order-equivalent to) the returned `similarity`
column, sorted descending.  The database is free to return rows with
equal keys in any order, so the query's contract is the relation
`SqlSelect`: the output is some descending-sorted arrangement of the
qualifying rows, truncated to `k`.  `intelligent_search`'s own logic
(category selection, supplementation, de-duplication, re-sorting,
truncation) is embedded as a function of the two store calls, which are
passed in as oracles. -/

/-- The contract of `ORDER BY similarity DESC LIMIT k`: `out` is a
permutation of the qualifying rows sorted by non-increasing similarity,
truncated to `k`.  Nothing constrains the relative order of rows with
equal similarity. -/
def SqlSelect (qualifying : List SearchResult) (k : Nat)
    (out : List SearchResult) : Prop :=
  ∃ l : List SearchResult, l.Perm qualifying ∧
    l.Pairwise (fun a b => b.similarity ≤ a.similarity) ∧ out = l.take k

/-- `out` is sorted by non-increasing similarity: whenever
`similarity a > similarity b`, `a` comes first. -/
def simSorted (out : List SearchResult) : Prop :=
  out.Pairwise (fun a b => b.similarity ≤ a.similarity)

namespace PolicySearchService

/-- One step of Python's stable `list.sort(key=..., reverse=True)`:
insert `r` before the first element it strictly beats or ties
(a tie keeps `r`, the earlier element of the original list, first). -/
def insertDesc (r : SearchResult) :
    List SearchResult → List SearchResult
  | [] => [r]
  | x :: xs =>
      if x.similarity ≤ r.similarity then r :: x :: xs
      else x :: insertDesc r xs

/-- Stable descending sort by similarity (insertion from the right). -/
def pySortDesc (l : List SearchResult) : List SearchResult :=
  l.foldr insertDesc []

/-- The supplement loop of `intelligent_search`: keep the rows of
`unfiltered` whose `chunk_id` is not in `seen`, extending `seen` as
rows are kept. -/
def dedupLoop : List String → List SearchResult → List SearchResult
  | _, [] => []
  | seen, r :: rest =>
      if r.chunk_id ∈ seen then dedupLoop seen rest
      else r :: dedupLoop (r.chunk_id :: seen) rest

/-- The supplement-merge of `intelligent_search` (search.py 291-300):
append unseen unfiltered rows, re-sort by similarity, truncate. -/
def intelligent_search_merge (top_k : Nat)
    (results unfiltered : List SearchResult) : List SearchResult :=
  (pySortDesc
    (results ++ dedupLoop (results.map (·.chunk_id)) unfiltered)).take top_k

/-- `PolicySearchService.intelligent_search` with
`use_llm_inference=False` (so inference is `infer_from_keywords`).  The
two store calls are oracles: `filteredS` is `filtered_search` as a
function of the category / subcategory / risk-level filters, and
`semanticS` is the unfiltered `semantic_search` result. -/
def intelligent_search
    (filteredS :
      Option String → Option String → Option (List String) →
        List SearchResult)
    (semanticS : List SearchResult) (top_k : Nat) (query : String) :
    List SearchResult × InferredContext :=
  let inferred := CategoryInference.infer_from_keywords query
  if inferred.has_filters ∧ (3 / 10 : ℚ) ≤ inferred.confidence then
    let results := filteredS inferred.categories.head?
      inferred.subcategories.head?
      (if inferred.risk_levels = [] then none
       else some inferred.risk_levels)
    if results.length < top_k / 2 then
      (intelligent_search_merge top_k results semanticS, inferred)
    else (results, inferred)
  else (semanticS, inferred)

end PolicySearchService

/-- A query on which the category with the most keyword hits is not the
first matched category in table order. -/
def divergingQuery : String := "heart diabetes glucose insulin hba1c"

/-- A probe row whose `category` field records the category filter the
store was asked for. -/
def tagRow (cat : Option String) : SearchResult :=
  { chunk_id := "tag", policy_id := "P", policy_name := "P",
    chunk_type := "criteria", category := cat.getD "", subcategory := none,
    criteria_id := none, risk_level := none, action_recommendation := none,
    content := "", similarity := 1 }

/-- A store oracle that answers every filtered search with the single
probe row recording the requested category. -/
def tagOracle (cat : Option String) (_ : Option String)
    (_ : Option (List String)) : List SearchResult := [tagRow cat]

/-- Two distinct qualifying rows with equal similarity. -/
def rowA : SearchResult :=
  { chunk_id := "A", policy_id := "P1", policy_name := "P",
    chunk_type := "criteria", category := "c", subcategory := none,
    criteria_id := none, risk_level := none, action_recommendation := none,
    content := "a", similarity := 1 / 2 }

/-- Like `rowA` but with a different `chunk_id` and content. -/
def rowB : SearchResult :=
  { chunk_id := "B", policy_id := "P1", policy_name := "P",
    chunk_type := "criteria", category := "c", subcategory := none,
    criteria_id := none, risk_level := none, action_recommendation := none,
    content := "b", similarity := 1 / 2 }

/-! ## RAG service facade (`app/rag/service.py`)

`RAGService.query` wraps the whole pipeline in one `try`; the model
runs the same steps over an oracle describing the outcome of each
fallible call (initialization, the two searches, the metadata
inference), and the `except` branch of the source becomes the `.error`
case.  Latency fields are carried but set to 0 (wall-clock time is not
modelled). -/

/-- `RAGQueryResult` dataclass. -/
structure RAGQueryResult where
  context : String
  rag_context : Option RAGContext := none
  inferred : Option InferredContext := none
  results : List SearchResult := []
  search_latency_ms : ℚ := 0
  assembly_latency_ms : ℚ := 0
  total_latency_ms : ℚ := 0
  chunks_retrieved : Nat := 0
  tokens_used : Nat := 0
  used_fallback : Bool := false
  fallback_reason : Option String := none

/-- Outcomes of the fallible calls made inside `RAGService.query`'s
`try` block. -/
structure QueryOracle where
  init : Except String Unit
  hybrid : Except String (List SearchResult)
  intelligent : Except String (List SearchResult × InferredContext)
  infer : Except String InferredContext

namespace RAGService

/-- The body of the `try` block of `RAGService.query`:
ensure initialization; hybrid search first (when enabled) with fallback
to intelligent search on an empty result, else intelligent search; then
context assembly. -/
def queryRun (enc : Encoding) (max_context_tokens : Nat)
    (use_hybrid_search : Bool) (o : QueryOracle) (user_query : String) :
    Except String (RAGContext × List SearchResult × InferredContext) := do
  o.init
  let (results, inferred) ←
    if use_hybrid_search then do
      let results ← o.hybrid
      if results = [] then
        o.intelligent
      else do
        let inferred ← o.infer
        pure (results, inferred)
    else
      o.intelligent
  let rag_context := RAGContextBuilder.assemble_context enc
    max_context_tokens results (some user_query) true "structured"
  pure (rag_context, results, inferred)

/-- `RAGService.query`: never raises — the `except` branch converts any
failure into an empty-context fallback result carrying the exception
message. -/
def query (enc : Encoding) (max_context_tokens : Nat)
    (use_hybrid_search : Bool) (o : QueryOracle) (user_query : String) :
    RAGQueryResult :=
  match queryRun enc max_context_tokens use_hybrid_search o user_query with
  | .ok (rag_context, results, inferred) =>
      { context := rag_context.context_text
        rag_context := some rag_context
        inferred := some inferred
        results := results
        chunks_retrieved := results.length
        tokens_used := rag_context.total_tokens
        used_fallback := false }
  | .error e =>
      { context := ""
        used_fallback := true
        fallback_reason := some e }

/-- `RAGService.query_with_fallback`. -/
def query_with_fallback (enc : Encoding) (max_context_tokens : Nat)
    (use_hybrid_search : Bool) (o : QueryOracle) (user_query : String)
    (fallback_context : String) : RAGQueryResult :=
  let result := query enc max_context_tokens use_hybrid_search o user_query
  if result.used_fallback || result.chunks_retrieved == 0 then
    { context := fallback_context
      used_fallback := true
      fallback_reason :=
        some (result.fallback_reason.getD "no chunks retrieved")
      total_latency_ms := result.total_latency_ms }
  else
    result

end RAGService

/-! ## Theorems -/

namespace PolicyChunker

theorem criteriaChunks_length (v pid pn cat : String) (sc : Option String)
    (cs : List Criterion) (seq : Nat) :
    (criteriaChunks v pid pn cat sc cs seq).length = cs.length := by
  induction cs generalizing seq with
  | nil => simp [criteriaChunks]
  | cons c cs ih => simp [criteriaChunks, ih]

theorem criteriaChunks_map_seq (v pid pn cat : String) (sc : Option String)
    (cs : List Criterion) (seq : Nat) :
    (criteriaChunks v pid pn cat sc cs seq).map (·.chunk_sequence) =
      List.range' seq cs.length := by
  induction cs generalizing seq with
  | nil => simp [criteriaChunks]
  | cons c cs ih =>
      simp [criteriaChunks, List.range'_succ, chunk_criteria, ih]

theorem criteriaChunks_map_type (v pid pn cat : String) (sc : Option String)
    (cs : List Criterion) (seq : Nat) :
    (criteriaChunks v pid pn cat sc cs seq).map (·.chunk_type) =
      List.replicate cs.length "criteria" := by
  induction cs generalizing seq with
  | nil => simp [criteriaChunks]
  | cons c cs ih =>
      simp [criteriaChunks, List.replicate_succ, chunk_criteria, ih]

theorem criteriaChunks_getElem (v pid pn cat : String) (sc : Option String) :
    ∀ (cs : List Criterion) (seq i : Nat) (h : i < cs.length),
      (criteriaChunks v pid pn cat sc cs seq)[i]? =
        some (chunk_criteria v pid pn cat sc (cs.get ⟨i, h⟩) (seq + i))
  | c :: cs, seq, 0, _ => by simp [criteriaChunks]
  | c :: cs, seq, i + 1, h => by
      have h' : i < cs.length := by simpa using Nat.lt_of_succ_lt_succ h
      simp only [criteriaChunks, List.getElem?_cons_succ]
      rw [criteriaChunks_getElem v pid pn cat sc cs (seq + 1) i h']
      simp [Nat.add_assoc, Nat.add_comm 1 i]

/-- Chunking the criteria run after replacing the `i`-th criterion
replaces exactly the `i`-th chunk. -/
theorem criteriaChunks_set (v pid pn cat : String) (sc : Option String) :
    ∀ (cs : List Criterion) (i seq : Nat) (c' : Criterion),
      criteriaChunks v pid pn cat sc (cs.set i c') seq =
        (criteriaChunks v pid pn cat sc cs seq).set i
          (chunk_criteria v pid pn cat sc c' (seq + i))
  | [], i, seq, c' => by simp [criteriaChunks]
  | c :: cs, 0, seq, c' => by
      simp [criteriaChunks]
  | c :: cs, i + 1, seq, c' => by
      simp only [List.set_cons_succ, criteriaChunks,
        criteriaChunks_set v pid pn cat sc cs i (seq + 1) c']
      rw [(by omega : seq + 1 + i = seq + (i + 1))]

/-- The criteria ids carried by a criteria-chunk run. -/
theorem criteriaChunks_map_cid (v pid pn cat : String) (sc : Option String) :
    ∀ (cs : List Criterion) (seq : Nat),
      (criteriaChunks v pid pn cat sc cs seq).map (·.criteria_id) =
        (assignedCriteriaIds pid cs seq).map some
  | [], seq => by simp [criteriaChunks, assignedCriteriaIds]
  | c :: cs, seq => by
      simp [criteriaChunks, assignedCriteriaIds, chunk_criteria,
        criteriaChunks_map_cid v pid pn cat sc cs (seq + 1)]

theorem assignedCriteriaIds_getElem (pid : String) :
    ∀ (cs : List Criterion) (seq i : Nat) (h : i < cs.length),
      (assignedCriteriaIds pid cs seq)[i]? =
        some (assignedCriteriaId pid (cs.get ⟨i, h⟩) (seq + i))
  | c :: cs, seq, 0, _ => by simp [assignedCriteriaIds]
  | c :: cs, seq, i + 1, h => by
      have h' : i < cs.length := by simpa using Nat.lt_of_succ_lt_succ h
      simp only [assignedCriteriaIds, List.getElem?_cons_succ]
      rw [assignedCriteriaIds_getElem pid cs (seq + 1) i h']
      simp [Nat.add_assoc, Nat.add_comm 1 i]

theorem assignedCriteriaIds_length (pid : String) :
    ∀ (cs : List Criterion) (seq : Nat),
      (assignedCriteriaIds pid cs seq).length = cs.length
  | [], _ => rfl
  | c :: cs, seq => by
      simp [assignedCriteriaIds, assignedCriteriaIds_length pid cs (seq + 1)]

/-- Every chunk of a criteria run belongs to the chunked policy. -/
theorem criteriaChunks_policy_id (v pid pn cat : String) (sc : Option String) :
    ∀ (cs : List Criterion) (seq : Nat),
      ∀ c ∈ criteriaChunks v pid pn cat sc cs seq, c.policy_id = pid
  | [], seq => by simp [criteriaChunks]
  | c :: cs, seq => by
      intro x hx
      rcases List.mem_cons.1 hx with h | h
      · rw [h]; rfl
      · exact criteriaChunks_policy_id v pid pn cat sc cs (seq + 1) x h

/-- Writing back the element already at a position is the identity. -/
theorem list_set_get_self {α : Type _} :
    ∀ (l : List α) (i : Nat) (h : i < l.length), l.set i l[i] = l
  | _ :: _, 0, _ => rfl
  | a :: l, i + 1, h => by
      have h' : i < l.length := by simpa using Nat.lt_of_succ_lt_succ h
      simp [list_set_get_self l i h']

/-- Changing one criterion's condition leaves the risk-level column of
the criteria list unchanged. -/
theorem map_risk_level_set (cs : List Criterion) (i : Nat)
    (h : i < cs.length) (newCond : String) :
    (cs.set i { cs.get ⟨i, h⟩ with condition := newCond }).map
        (·.risk_level) = cs.map (·.risk_level) := by
  rw [List.map_set]
  have hi : i < (cs.map (·.risk_level)).length := by simpa using h
  have hval : (cs.map (·.risk_level))[i] = (cs.get ⟨i, h⟩).risk_level := by
    simp
  have hrl : ({ cs.get ⟨i, h⟩ with condition := newCond } :
      Criterion).risk_level = (cs.get ⟨i, h⟩).risk_level := rfl
  rw [hrl, ← hval, list_set_get_self _ i hi]

/-- The header chunk ignores a criteria replacement that preserves the
risk-level column (and hence the count). -/
theorem chunk_policy_header_set (v : String) (p : Policy) (i : Nat)
    (c' : Criterion) (seq : Nat)
    (hrl : (p.criteria.set i c').map (·.risk_level) =
      p.criteria.map (·.risk_level)) :
    chunk_policy_header v { p with criteria := p.criteria.set i c' } seq =
      chunk_policy_header v p seq := by
  simp [chunk_policy_header, hrl]

/-- **Change isolation**: replacing the `i`-th criterion by one with the
same risk level replaces exactly the `(1+i)`-th chunk of the policy's
chunk list; header, other criteria chunks, modifying-factors chunk and
references chunk are all bit-identical. -/
theorem chunk_policy_set (v : String) (p : Policy) (i : Nat)
    (h : i < p.criteria.length) (c' : Criterion)
    (hrl : (p.criteria.set i c').map (·.risk_level) =
      p.criteria.map (·.risk_level)) :
    chunk_policy v { p with criteria := p.criteria.set i c' } =
      (chunk_policy v p).set (1 + i)
        (chunk_criteria v p.id p.name p.category p.subcategory c' (1 + i)) := by
  have hlen : i < (criteriaChunks v p.id p.name p.category p.subcategory
      p.criteria 1).length := by
    rw [criteriaChunks_length]; exact h
  have hlen2 : i < (criteriaChunks v p.id p.name p.category p.subcategory
      p.criteria 1 ++
      (if p.modifying_factors ≠ [] then
        [chunk_modifying_factors v p.id p.name p.category p.subcategory
          p.modifying_factors (1 + p.criteria.length)]
      else [])).length := by
    rw [List.length_append]
    exact Nat.lt_of_lt_of_le hlen (Nat.le_add_right _ _)
  simp only [chunk_policy]
  rw [chunk_policy_header_set v p i c' 0 hrl,
    criteriaChunks_set v p.id p.name p.category p.subcategory p.criteria i 1 c']
  simp only [List.length_set]
  rw [(by omega : 1 + i = i + 1), List.set_cons_succ,
    List.set_append_left i _ hlen2, List.set_append_left i _ hlen,
    (by omega : i + 1 = 1 + i)]

/-- In a duplicate-free list, filtering for a member keeps exactly that
element. -/
theorem filter_eq_singleton_of_nodup :
    ∀ (l : List String) (a : String), l.Nodup → a ∈ l →
      l.filter (fun x => decide (x = a)) = [a]
  | [], a, _, hm => absurd hm (List.not_mem_nil a)
  | b :: t, a, hnd, hm => by
      have hnd' := List.nodup_cons.1 hnd
      by_cases hb : b = a
      · subst hb
        have htnil : t.filter (fun x => decide (x = b)) = [] := by
          rw [List.filter_eq_nil_iff]
          intro x hx
          simp only [decide_eq_true_eq]
          intro he; subst he; exact hnd'.1 hx
        simp [List.filter_cons, htnil]
      · have hm' : a ∈ t := (List.mem_cons.1 hm).resolve_left
          (fun he => hb he.symm)
        simp [List.filter_cons, hb,
          filter_eq_singleton_of_nodup t a hnd'.2 hm']

/-- Replacing a criterion replaces exactly its assigned id. -/
theorem assignedCriteriaIds_set (pid : String) :
    ∀ (cs : List Criterion) (i seq : Nat) (c' : Criterion),
      assignedCriteriaIds pid (cs.set i c') seq =
        (assignedCriteriaIds pid cs seq).set i
          (assignedCriteriaId pid c' (seq + i))
  | [], i, seq, c' => by simp [assignedCriteriaIds]
  | c :: cs, 0, seq, c' => by simp [assignedCriteriaIds]
  | c :: cs, i + 1, seq, c' => by
      simp only [List.set_cons_succ, assignedCriteriaIds,
        assignedCriteriaIds_set pid cs i (seq + 1) c']
      rw [(by omega : seq + 1 + i = seq + (i + 1))]

/-- The criteria-run chunks filtered by a criteria id are in bijection
with the assigned ids filtered by that id. -/
theorem criteriaChunks_filter_cid_length (v pid pn cat : String)
    (sc : Option String) (cid : String) :
    ∀ (cs : List Criterion) (seq : Nat),
      ((criteriaChunks v pid pn cat sc cs seq).filter
        (fun c => decide (c.criteria_id = some cid))).length =
      ((assignedCriteriaIds pid cs seq).filter
        (fun a => decide (a = cid))).length
  | [], seq => by simp [criteriaChunks, assignedCriteriaIds]
  | c :: cs, seq => by
      have ih := criteriaChunks_filter_cid_length v pid pn cat sc cid cs
        (seq + 1)
      by_cases hc : assignedCriteriaId pid c seq = cid
      · simp [criteriaChunks, assignedCriteriaIds, List.filter_cons,
          chunk_criteria, hc, ih]
      · simp [criteriaChunks, assignedCriteriaIds, List.filter_cons,
          chunk_criteria, hc, ih]

/-- Among the chunks of a policy with duplicate-free assigned criteria
ids, exactly one chunk carries a given assigned id. -/
theorem chunk_policy_filter_cid_length (v : String) (p : Policy)
    (cid : String)
    (hids : (assignedCriteriaIds p.id p.criteria 1).Nodup)
    (hmem : cid ∈ assignedCriteriaIds p.id p.criteria 1) :
    ((chunk_policy v p).filter
      (fun c => decide (c.criteria_id = some cid))).length = 1 := by
  have hsingle := filter_eq_singleton_of_nodup _ cid hids hmem
  have hcrit := criteriaChunks_filter_cid_length v p.id p.name p.category
    p.subcategory cid p.criteria 1
  rw [hsingle] at hcrit
  by_cases hmf : p.modifying_factors = [] <;>
    by_cases href : p.references = [] <;>
    simp [chunk_policy, hmf, href, List.filter_cons, List.filter_append,
      chunk_policy_header, chunk_modifying_factors, chunk_references,
      hcrit]

/-- The `(1+i)`-th chunk of a policy is the chunk of its `i`-th
criterion. -/
theorem chunk_policy_getElem_criteria (v : String) (p : Policy) (i : Nat)
    (h : i < p.criteria.length) :
    (chunk_policy v p)[1 + i]? =
      some (chunk_criteria v p.id p.name p.category p.subcategory
        (p.criteria.get ⟨i, h⟩) (1 + i)) := by
  have hlt : i < (criteriaChunks v p.id p.name p.category
      p.subcategory p.criteria 1).length := by
    rw [criteriaChunks_length]; exact h
  have hlt2 : i < (criteriaChunks v p.id p.name p.category p.subcategory
      p.criteria 1 ++
      (if p.modifying_factors ≠ [] then
        [chunk_modifying_factors v p.id p.name p.category
          p.subcategory p.modifying_factors (1 + p.criteria.length)]
      else [])).length := by
    rw [List.length_append]
    exact Nat.lt_of_lt_of_le hlt (Nat.le_add_right _ _)
  simp only [chunk_policy]
  rw [show 1 + i = i + 1 by omega, List.getElem?_cons_succ,
    List.getElem?_append_left hlt2, List.getElem?_append_left hlt,
    criteriaChunks_getElem v p.id p.name p.category p.subcategory
      p.criteria 1 i h, (by omega : 1 + i = i + 1)]

/-- Every chunk emitted for a policy carries that policy's id. -/
theorem chunk_policy_policy_id (v : String) (p : Policy) :
    ∀ c ∈ chunk_policy v p, c.policy_id = p.id := by
  intro c hc
  simp only [chunk_policy, List.mem_cons, List.mem_append] at hc
  rcases hc with h | (h | h) | h
  · rw [h]; rfl
  · exact criteriaChunks_policy_id v p.id p.name p.category p.subcategory
      p.criteria 1 c h
  · by_cases hmf : p.modifying_factors = [] <;> simp [hmf] at h
    rw [h]; rfl
  · by_cases href : p.references = [] <;> simp [href] at h
    rw [h]; rfl

end PolicyChunker

/-- Appending the next value to a contiguous range extends it. -/
theorem range'_snoc (s n : Nat) :
    List.range' s n ++ [s + n] = List.range' s (n + 1) :=
  (List.range'_1_concat s n).symm

theorem range'_one_after (n : Nat) :
    List.range' 1 n ++ [1 + n] = 1 :: List.range' 2 n := by
  rw [range'_snoc, List.range'_succ]

theorem range'_two_after (n : Nat) :
    List.range' 1 n ++ [1 + n, 1 + n + 1] = 1 :: 2 :: List.range' 3 n := by
  show List.range' 1 n ++ ([1 + n] ++ [1 + n + 1]) = _
  rw [← List.append_assoc, range'_snoc, Nat.add_assoc 1 n 1, range'_snoc,
    List.range'_succ, List.range'_succ]

/-- **C6.** For every policy with `N` criteria, `chunk_policy` emits chunks
whose `chunk_sequence` values are exactly `0, 1, …` with no gaps (the map
of sequences is `List.range` of the output length), laid out as: header
(sequence 0), the `N` criteria chunks in source order (sequences
`1..N`), then one combined modifying-factors chunk exactly when
`modifying_factors` is non-empty, then one combined references chunk
exactly when `references` is non-empty.  The `i`-th criteria chunk
carries the `i`-th source criterion's id. -/
theorem chunk_policy_sequence_layout (v : String) (p : Policy) :
    (PolicyChunker.chunk_policy v p).map (·.chunk_sequence) =
        List.range (PolicyChunker.chunk_policy v p).length ∧
    (PolicyChunker.chunk_policy v p).map (·.chunk_type) =
      "policy_header" ::
        (List.replicate p.criteria.length "criteria" ++
          (if p.modifying_factors ≠ [] then ["modifying_factor"] else []) ++
          (if p.references ≠ [] then ["reference"] else [])) ∧
    ∀ i (h : i < p.criteria.length),
      ((PolicyChunker.chunk_policy v p)[1 + i]?).map (·.criteria_id) =
        some (some ((p.criteria.get ⟨i, h⟩).id.getD
          (p.id ++ "-" ++ toString (1 + i)))) := by
  refine ⟨?_, ?_, ?_⟩
  · by_cases hmf : p.modifying_factors = [] <;>
      by_cases href : p.references = [] <;>
      simp [PolicyChunker.chunk_policy, hmf, href,
        PolicyChunker.criteriaChunks_map_seq,
        PolicyChunker.criteriaChunks_length,
        PolicyChunker.chunk_policy_header,
        PolicyChunker.chunk_modifying_factors, PolicyChunker.chunk_references,
        List.range_eq_range', List.range'_succ,
        range'_one_after, range'_two_after]
  · by_cases hmf : p.modifying_factors = [] <;>
      by_cases href : p.references = [] <;>
      simp [PolicyChunker.chunk_policy, hmf, href,
        PolicyChunker.criteriaChunks_map_type,
        PolicyChunker.chunk_policy_header,
        PolicyChunker.chunk_modifying_factors, PolicyChunker.chunk_references]
  · intro i h
    have hlt :
        i < (PolicyChunker.criteriaChunks v p.id p.name p.category
          p.subcategory p.criteria 1).length := by
      rw [PolicyChunker.criteriaChunks_length]; exact h
    have hlt2 :
        i < (PolicyChunker.criteriaChunks v p.id p.name p.category
          p.subcategory p.criteria 1 ++
          (if p.modifying_factors ≠ [] then
            [PolicyChunker.chunk_modifying_factors v p.id p.name p.category
              p.subcategory p.modifying_factors (1 + p.criteria.length)]
          else [])).length := by
      rw [List.length_append]
      exact Nat.lt_of_lt_of_le hlt (Nat.le_add_right _ _)
    simp only [PolicyChunker.chunk_policy]
    rw [show 1 + i = i + 1 by omega, List.getElem?_cons_succ,
      List.getElem?_append_left hlt2,
      List.getElem?_append_left hlt,
      PolicyChunker.criteriaChunks_getElem v p.id p.name p.category
        p.subcategory p.criteria 1 i h]
    simp [PolicyChunker.chunk_criteria, PolicyChunker.assignedCriteriaId,
      Nat.add_comm 1 i]

/-- Witness for C6 at a concrete policy: the first criteria chunk (index
1) carries the first source criterion's id. -/
theorem chunk_policy_sequence_layout_witness :
    ((PolicyChunker.chunk_policy "1.0" samplePolicy)[1 + 0]?).map
      (·.criteria_id) = some (some "BP-1") := by
  have h := (chunk_policy_sequence_layout "1.0" samplePolicy).2.2 0 (by decide)
  simpa using h

/-- **C8.** For every input list of more than 100 texts,
`get_embeddings_batch` fails client-side with the batch-size
`EmbeddingError` and issues zero HTTP requests — regardless of the
settings, the retry budget, or how the network would have answered (so
no retry can be attempted). -/
theorem get_embeddings_batch_oversize (settings : OpenAISettings)
    (texts : List String) (max_retries : Nat)
    (responses : Nat → EmbeddingService.HttpOutcome)
    (h : 100 < texts.length) :
    EmbeddingService.get_embeddings_batch settings texts max_retries responses =
      (.error ("Batch size " ++ toString texts.length ++
        " exceeds maximum " ++ toString EmbeddingService.MAX_BATCH_SIZE ++
        ". Split into smaller batches."), 0) := by
  have hne : texts ≠ [] := by
    intro he; rw [he] at h; simp at h
  have h' : EmbeddingService.MAX_BATCH_SIZE < texts.length := h
  simp [EmbeddingService.get_embeddings_batch, hne, h']

/-- Witness for C8: a batch of 101 texts fails with the exact message
and zero network calls. -/
theorem get_embeddings_batch_oversize_witness :
    EmbeddingService.get_embeddings_batch ⟨"https://e", "key"⟩
      (List.replicate 101 "x") 3 (fun _ => .timeout) =
      (.error "Batch size 101 exceeds maximum 100. Split into smaller batches.",
        0) := by
  have h := get_embeddings_batch_oversize ⟨"https://e", "key"⟩
    (List.replicate 101 "x") 3 (fun _ => .timeout) (by simp)
  simpa using h

/-- **C10.** For the empty input list, `get_embeddings_batch` returns an
empty list with zero HTTP requests and no error, for every settings
value — including unconfigured endpoint/api-key — because the
empty-input check precedes both the batch-size guard and the credentials
validation; consequently `embed_chunks` on an empty chunk list returns
it unchanged with zero requests. -/
theorem get_embeddings_batch_empty (settings : OpenAISettings)
    (max_retries : Nat) (responses : Nat → EmbeddingService.HttpOutcome) :
    EmbeddingService.get_embeddings_batch settings [] max_retries responses =
      (.ok [], 0) ∧
    ∀ (oracles : Nat → Nat → EmbeddingService.HttpOutcome) (bs : Nat)
      (hbs : 0 < bs),
      EmbeddingService.embed_chunks settings oracles [] bs hbs =
        (.ok [], 0) := by
  refine ⟨by simp [EmbeddingService.get_embeddings_batch], ?_⟩
  intro oracles bs hbs
  simp [EmbeddingService.embed_chunks]

/-- Witness for C10 with empty credentials, a concrete retry budget and
a hostile network oracle. -/
theorem get_embeddings_batch_empty_witness :
    EmbeddingService.get_embeddings_batch ⟨"", ""⟩ [] 3 (fun _ => .timeout) =
        (.ok [], 0) ∧
    EmbeddingService.embed_chunks ⟨"", ""⟩ (fun _ _ => .timeout) [] 50
        (by decide) = (.ok [], 0) := by
  have h := get_embeddings_batch_empty ⟨"", ""⟩ 3 (fun _ => .timeout)
  exact ⟨h.1, h.2 (fun _ _ => .timeout) 50 (by decide)⟩


namespace PolicyChunkRepository

/-- The `DO UPDATE` clause does not touch the key columns. -/
theorem rowKey_updateRow (old new : Row) :
    rowKey (updateRow old new) = rowKey old := rfl

/-- The key written for a chunk is its chunk key. -/
theorem rowKey_rowOfChunk (c : PolicyChunk) (emb : List ℚ) :
    rowKey (rowOfChunk c emb) = chunkKey c := rfl

/-- Upserting a row whose key is already stored leaves the key column
unchanged; a fresh key is appended. -/
theorem map_rowKey_upsertRow (r : Row) : ∀ (s : List Row),
    (upsertRow r s).map rowKey =
      if rowKey r ∈ s.map rowKey then s.map rowKey
      else s.map rowKey ++ [rowKey r]
  | [] => by simp [upsertRow]
  | x :: xs => by
      by_cases h : rowKey x = rowKey r
      · have hm : rowKey r ∈ (x :: xs).map rowKey := by
          rw [List.map_cons]
          exact List.mem_cons.2 (.inl h.symm)
        have hstep : upsertRow r (x :: xs) = updateRow x r :: xs := by
          rw [upsertRow]
          exact if_pos h
        rw [if_pos hm, hstep, List.map_cons, List.map_cons, rowKey_updateRow]
      · have hstep : upsertRow r (x :: xs) = x :: upsertRow r xs := by
          simp only [upsertRow, if_neg h]
        rw [hstep, List.map_cons, map_rowKey_upsertRow r xs, List.map_cons]
        have hmem : (rowKey r ∈ rowKey x :: xs.map rowKey) ↔
            rowKey r ∈ xs.map rowKey := by
          rw [List.mem_cons]
          exact ⟨fun hc => hc.resolve_left (fun he => h he.symm), .inr⟩
        by_cases hm : rowKey r ∈ xs.map rowKey
        · rw [if_pos hm, if_pos (hmem.2 hm)]
        · rw [if_neg hm, if_neg (fun hc => hm (hmem.1 hc)), List.cons_append]

/-- Membership in the keys after an upsert. -/
theorem mem_map_rowKey_upsertRow (r : Row) (s : List Row) (k) :
    k ∈ (upsertRow r s).map rowKey ↔ k ∈ s.map rowKey ∨ k = rowKey r := by
  rw [map_rowKey_upsertRow]
  by_cases hm : rowKey r ∈ s.map rowKey
  · rw [if_pos hm]
    exact ⟨.inl, fun hc => hc.elim id (fun he => he ▸ hm)⟩
  · rw [if_neg hm, List.mem_append, List.mem_singleton]

/-- Keys present in the store after `insert_chunks`: the old keys plus
the keys of the inserted chunks that carried an embedding. -/
theorem mem_keys_insert_chunks :
    ∀ (cs : List PolicyChunk) (s : List Row) (k),
      k ∈ (insert_chunks s cs).1.map rowKey ↔
        k ∈ s.map rowKey ∨ ∃ c ∈ cs, c.embedding.isSome ∧ chunkKey c = k
  | [], s, k => by simp [insert_chunks]
  | c :: cs, s, k => by
      match he : c.embedding with
      | none =>
          simp [insert_chunks, he, mem_keys_insert_chunks cs s k]
      | some emb =>
          simp only [insert_chunks, he,
            mem_keys_insert_chunks cs (upsertRow (rowOfChunk c emb) s) k,
            mem_map_rowKey_upsertRow, rowKey_rowOfChunk]
          constructor
          · rintro ((h | h) | ⟨c', hc', hs, hk⟩)
            · exact .inl h
            · exact .inr ⟨c, by simp, by simp [he], h.symm⟩
            · exact .inr ⟨c', by simp [hc'], hs, hk⟩
          · rintro (h | ⟨c', hc', hs, hk⟩)
            · exact .inl (.inl h)
            · rcases List.mem_cons.1 hc' with h' | h'
              · subst h'; exact .inl (.inr hk.symm)
              · exact .inr ⟨c', h', hs, hk⟩

/-- Upserting a row with a fresh key appends it. -/
theorem upsertRow_fresh (r : Row) :
    ∀ (s : List Row), rowKey r ∉ s.map rowKey → upsertRow r s = s ++ [r]
  | [], _ => by simp [upsertRow]
  | x :: xs, hfr => by
      have h1 : ¬ rowKey x = rowKey r := fun he => hfr
        (by rw [List.map_cons]; exact List.mem_cons.2 (.inl he.symm))
      have h2 : rowKey r ∉ xs.map rowKey := fun hm => hfr
        (by rw [List.map_cons]; exact List.mem_cons.2 (.inr hm))
      have hstep : upsertRow r (x :: xs) = x :: upsertRow r xs := by
        rw [upsertRow]
        exact if_neg h1
      rw [hstep, upsertRow_fresh r xs h2, List.cons_append]

/-- Inserting chunks with pairwise-distinct keys, none of which is
already stored, appends their rows in order. -/
theorem insert_chunks_fresh_append :
    ∀ (cs : List PolicyChunk) (s : List Row),
      (∀ c ∈ cs, c.embedding.isSome) →
      ((cs.map chunkKey).Nodup) →
      (∀ c ∈ cs, chunkKey c ∉ s.map rowKey) →
      (insert_chunks s cs).1 =
        s ++ cs.map (fun c => rowOfChunk c (c.embedding.getD []))
  | [], s, _, _, _ => by simp [insert_chunks]
  | c :: cs, s, hemb, hnd, hfresh => by
      match he : c.embedding with
      | none => exact absurd (hemb c (by simp)) (by simp [he])
      | some emb =>
          have hnd0 : (chunkKey c :: cs.map chunkKey).Nodup := by
            rw [← List.map_cons]; exact hnd
          have hnd' := List.nodup_cons.1 hnd0
          have hfr : rowKey (rowOfChunk c emb) ∉ s.map rowKey := by
            rw [rowKey_rowOfChunk]; exact hfresh c (by simp)
          have hfresh' : ∀ c' ∈ cs,
              chunkKey c' ∉ (s ++ [rowOfChunk c emb]).map rowKey := by
            intro c' hc' hmem
            rw [List.map_append, List.mem_append] at hmem
            rcases hmem with hm | hm
            · exact hfresh c' (by simp [hc']) hm
            · rw [List.map_cons, List.map_nil, List.mem_singleton,
                rowKey_rowOfChunk] at hm
              exact hnd'.1 (hm ▸ List.mem_map_of_mem chunkKey hc')
          simp only [insert_chunks, he]
          rw [upsertRow_fresh _ s hfr,
            insert_chunks_fresh_append cs (s ++ [rowOfChunk c emb])
              (fun c' hc' => hemb c' (by simp [hc'])) hnd'.2 hfresh',
            List.append_assoc, List.singleton_append, List.map_cons, he]
          rfl

/-- When every inserted chunk's key is already stored, `insert_chunks`
changes neither the key column nor the number of rows. -/
theorem insert_chunks_preserves :
    ∀ (cs : List PolicyChunk) (s : List Row),
      (∀ c ∈ cs, c.embedding.isSome → chunkKey c ∈ s.map rowKey) →
      (insert_chunks s cs).1.map rowKey = s.map rowKey
  | [], s, _ => by simp [insert_chunks]
  | c :: cs, s, h => by
      match he : c.embedding with
      | none =>
          simp only [insert_chunks, he]
          exact insert_chunks_preserves cs s
            (fun c' hc' hs => h c' (by simp [hc']) hs)
      | some emb =>
          have hk : chunkKey c ∈ s.map rowKey :=
            h c (by simp) (by simp [he])
          have hkeys : (upsertRow (rowOfChunk c emb) s).map rowKey =
              s.map rowKey := by
            rw [map_rowKey_upsertRow, rowKey_rowOfChunk, if_pos hk]
          simp only [insert_chunks, he]
          rw [insert_chunks_preserves cs (upsertRow (rowOfChunk c emb) s)
            (fun c' hc' hs => by
              rw [hkeys]; exact h c' (by simp [hc']) hs)]
          exact hkeys

end PolicyChunkRepository

/-- **C5.** Re-indexing an unchanged policy set with `force=false` is
idempotent at the row level: for every store produced by a successful
`index_policies` run, running `index_policies` again on the same
policies leaves the stored rows' identity keys — the column of
`(policy_id, chunk_type, criteria_id-or-empty, content_hash)` values —
exactly unchanged, and adds zero net new rows, because unchanged content
chunks to the same content hashes and every insert hits the upsert's
`DO UPDATE` branch. -/
theorem index_policies_idempotent (embedf : String → List ℚ)
    (store : List Row) (policies : List Policy)
    (policy_ids : Option (List String)) :
    (PolicyIndexer.index_policies embedf
        (PolicyIndexer.index_policies embedf store policies policy_ids false)
        policies policy_ids false).map rowKey =
      (PolicyIndexer.index_policies embedf store policies policy_ids false).map
        rowKey ∧
    (PolicyIndexer.index_policies embedf
        (PolicyIndexer.index_policies embedf store policies policy_ids false)
        policies policy_ids false).length =
      (PolicyIndexer.index_policies embedf store policies policy_ids false).length := by
  classical
  by_cases hT : PolicyIndexer.targetedPolicies policies policy_ids = []
  · simp [PolicyIndexer.index_policies, hT]
  · have hunfold : ∀ (s : List Row),
        PolicyIndexer.index_policies embedf s policies policy_ids false =
          (PolicyChunkRepository.insert_chunks s
            ((PolicyChunker.chunk_all_policies "1.0"
                (PolicyIndexer.targetedPolicies policies policy_ids)).map
              (fun c => { c with embedding := some (embedf c.content) }))).1 := by
      intro s
      simp [PolicyIndexer.index_policies, hT]
    set embedded := (PolicyChunker.chunk_all_policies "1.0"
        (PolicyIndexer.targetedPolicies policies policy_ids)).map
      (fun c => { c with embedding := some (embedf c.content) }) with hemb
    set s1 := (PolicyChunkRepository.insert_chunks store embedded).1 with hs1
    have hsub : ∀ c ∈ embedded, c.embedding.isSome →
        chunkKey c ∈ s1.map rowKey := by
      intro c hc hs
      rw [hs1, PolicyChunkRepository.mem_keys_insert_chunks]
      exact .inr ⟨c, hc, hs, rfl⟩
    have hkeys := PolicyChunkRepository.insert_chunks_preserves embedded s1 hsub
    rw [hunfold store, hunfold s1, ← hs1]
    refine ⟨hkeys, ?_⟩
    have := congrArg List.length hkeys
    simpa using this

/-- **C9.** Editing exactly one criterion's text changes only that
criterion's chunk: the new chunk list is the old one with exactly the
`(1+i)`-th entry replaced (so every other chunk, header and combined
chunks included, keeps its `content_hash`), and the edited chunk's
`content_hash` changes (given that SHA-256 does not collide on the two
contents, which is the `habsent` hypothesis discharged by computation in
the witness).  After a forced reindex of that policy, the store holds
exactly one row of that policy carrying the edited criterion's id, and
the old hash is absent from the policy's rows. -/
theorem criterion_edit_change_detection
    (p : Policy) (i : Nat) (h : i < p.criteria.length) (newCond : String)
    (p' : Policy)
    (hp' : p' =
      { p with criteria :=
          p.criteria.set i ({ p.criteria.get ⟨i, h⟩ with condition := newCond }) })
    (cid : String)
    (hcid : cid = PolicyChunker.assignedCriteriaId p.id
      (p.criteria.get ⟨i, h⟩) (1 + i))
    (oldHash : String)
    (hold : oldHash = (PolicyChunker.chunk_criteria "1.0" p.id p.name
      p.category p.subcategory (p.criteria.get ⟨i, h⟩) (1 + i)).content_hash)
    (hids : (PolicyChunker.assignedCriteriaIds p'.id p'.criteria 1).Nodup)
    (hkeys : ((PolicyChunker.chunk_policy "1.0" p').map chunkKey).Nodup)
    (habsent : ∀ c ∈ PolicyChunker.chunk_policy "1.0" p',
      c.content_hash ≠ oldHash)
    (embedf : String → List ℚ) (store : List Row) (policies : List Policy)
    (hfilter : PolicyIndexer.targetedPolicies policies (some [p.id]) = [p']) :
    PolicyChunker.chunk_policy "1.0" p' =
      (PolicyChunker.chunk_policy "1.0" p).set (1 + i)
        (PolicyChunker.chunk_criteria "1.0" p.id p.name p.category
          p.subcategory ({ p.criteria.get ⟨i, h⟩ with condition := newCond })
          (1 + i)) ∧
    (∀ j, j ≠ 1 + i →
      (PolicyChunker.chunk_policy "1.0" p')[j]? =
        (PolicyChunker.chunk_policy "1.0" p)[j]?) ∧
    ((PolicyChunker.chunk_policy "1.0" p')[1 + i]?).map (·.content_hash) ≠
      ((PolicyChunker.chunk_policy "1.0" p)[1 + i]?).map (·.content_hash) ∧
    ((PolicyIndexer.reindex_policy embedf store policies p.id).filter
      (fun r => decide (r.policy_id = p.id ∧ r.criteria_id = some cid))).length
        = 1 ∧
    (∀ r ∈ PolicyIndexer.reindex_policy embedf store policies p.id,
      r.policy_id = p.id → r.content_hash ≠ oldHash) := by
  classical
  subst hp'
  set newCrit : Criterion :=
    { p.criteria.get ⟨i, h⟩ with condition := newCond } with hnewCrit
  set p' : Policy := { p with criteria := p.criteria.set i newCrit } with hp'
  have hset := PolicyChunker.chunk_policy_set "1.0" p i h newCrit
    (PolicyChunker.map_risk_level_set p.criteria i h newCond)
  have hlb : 1 + p.criteria.length ≤ (PolicyChunker.chunk_policy "1.0" p).length := by
    simp only [PolicyChunker.chunk_policy, List.length_cons,
      List.length_append, PolicyChunker.criteriaChunks_length]
    omega
  have hlen : 1 + i < (PolicyChunker.chunk_policy "1.0" p).length :=
    Nat.lt_of_lt_of_le (by omega) hlb
  -- the edited chunk and the old chunk at position 1+i
  have hnew_at : (PolicyChunker.chunk_policy "1.0" p')[1 + i]? =
      some (PolicyChunker.chunk_criteria "1.0" p.id p.name p.category
        p.subcategory newCrit (1 + i)) := by
    rw [hset]
    exact List.getElem?_set_self hlen
  have hold_at : (PolicyChunker.chunk_policy "1.0" p)[1 + i]? =
      some (PolicyChunker.chunk_criteria "1.0" p.id p.name p.category
        p.subcategory (p.criteria.get ⟨i, h⟩) (1 + i)) :=
    PolicyChunker.chunk_policy_getElem_criteria "1.0" p i h
  -- shape of the store after the forced reindex
  have reindex_shape : ∃ deleted : List Row,
      (∀ r ∈ deleted, r.policy_id ≠ p.id) ∧
      PolicyIndexer.reindex_policy embedf store policies p.id =
        deleted ++ (PolicyChunker.chunk_policy "1.0" p').map
          ((fun c => rowOfChunk c (c.embedding.getD [])) ∘
            (fun c0 => { c0 with embedding := some (embedf c0.content) })) := by
    have hrun : PolicyIndexer.reindex_policy embedf store policies p.id =
        (PolicyChunkRepository.insert_chunks
          ((PolicyChunkRepository.delete_chunks_by_policy store p'.id).1)
          ((PolicyChunker.chunk_policy "1.0" p').map
            (fun c => { c with embedding := some (embedf c.content) }))).1 := by
      simp [PolicyIndexer.reindex_policy, PolicyIndexer.index_policies,
        hfilter, PolicyChunker.chunk_all_policies]
    have hdel : ∀ r ∈ (PolicyChunkRepository.delete_chunks_by_policy store
        p'.id).1, r.policy_id ≠ p.id := by
      intro r hr
      simp only [PolicyChunkRepository.delete_chunks_by_policy,
        List.mem_filter, decide_eq_true_eq] at hr
      exact hr.2
    have hembsome : ∀ c ∈ (PolicyChunker.chunk_policy "1.0" p').map
        (fun c => { c with embedding := some (embedf c.content) }),
        c.embedding.isSome := by
      intro c hc
      rcases List.mem_map.1 hc with ⟨c0, _, rfl⟩
      rfl
    have hcid0 : ∀ c ∈ (PolicyChunker.chunk_policy "1.0" p').map
        (fun c => { c with embedding := some (embedf c.content) }),
        c.policy_id = p.id := by
      intro c hc
      rcases List.mem_map.1 hc with ⟨c0, hc0, rfl⟩
      show c0.policy_id = p.id
      exact PolicyChunker.chunk_policy_policy_id "1.0" p' c0 hc0
    have hkeys' : (((PolicyChunker.chunk_policy "1.0" p').map
        (fun c => { c with embedding := some (embedf c.content) })).map
          chunkKey).Nodup := by
      have heq : ((PolicyChunker.chunk_policy "1.0" p').map
          (fun c => { c with embedding := some (embedf c.content) })).map
            chunkKey =
          (PolicyChunker.chunk_policy "1.0" p').map chunkKey := by
        rw [List.map_map]
        rfl
      rw [heq]
      exact hkeys
    have hfresh : ∀ c ∈ (PolicyChunker.chunk_policy "1.0" p').map
        (fun c => { c with embedding := some (embedf c.content) }),
        chunkKey c ∉ ((PolicyChunkRepository.delete_chunks_by_policy store
          p'.id).1).map rowKey := by
      intro c hc hmem
      rcases List.mem_map.1 hmem with ⟨r, hr, hkey⟩
      have hfst : r.policy_id = c.policy_id := congrArg Prod.fst hkey
      exact hdel r hr (hfst.trans (hcid0 c hc))
    have happend := PolicyChunkRepository.insert_chunks_fresh_append
      ((PolicyChunker.chunk_policy "1.0" p').map
        (fun c => { c with embedding := some (embedf c.content) }))
      ((PolicyChunkRepository.delete_chunks_by_policy store p'.id).1)
      hembsome hkeys' hfresh
    exact ⟨(PolicyChunkRepository.delete_chunks_by_policy store p'.id).1,
      hdel, by rw [hrun, happend, List.map_map]⟩
  refine ⟨hset, ?_, ?_, ?_, ?_⟩
  · intro j hj
    rw [hset]
    exact List.getElem?_set_ne (fun he => hj he.symm)
  · rw [hnew_at, hold_at]
    intro heq
    have heq2 : (PolicyChunker.chunk_criteria "1.0" p.id p.name p.category
        p.subcategory newCrit (1 + i)).content_hash =
        (PolicyChunker.chunk_criteria "1.0" p.id p.name p.category
          p.subcategory (p.criteria.get ⟨i, h⟩) (1 + i)).content_hash := by
      simpa using heq
    exact habsent _ (List.getElem?_mem hnew_at) (hold ▸ heq2)
  · -- exactly one stored row of the policy carries the criteria id
    rcases reindex_shape with ⟨deleted, hdel, hresult⟩
    rw [hresult, List.filter_append]
    have hdelfil : deleted.filter
        (fun r => decide (r.policy_id = p.id ∧ r.criteria_id = some cid)) =
        [] := by
      rw [List.filter_eq_nil_iff]
      intro r hr
      simp only [decide_eq_true_eq, not_and]
      intro hpid' _
      exact hdel r hr hpid'
    rw [hdelfil, List.nil_append, List.filter_map, List.length_map]
    have hped : ∀ c ∈ PolicyChunker.chunk_policy "1.0" p',
        ((fun r => decide (r.policy_id = p.id ∧ r.criteria_id = some cid)) ∘
          ((fun c => rowOfChunk c (c.embedding.getD [])) ∘
            (fun c0 => { c0 with embedding := some (embedf c0.content) }))) c =
        decide (c.criteria_id = some cid) := by
      intro c hc
      show decide (c.policy_id = p.id ∧ c.criteria_id = some cid) =
        decide (c.criteria_id = some cid)
      rw [decide_eq_decide]
      exact ⟨fun hx => hx.2, fun hx =>
        ⟨PolicyChunker.chunk_policy_policy_id "1.0" p' c hc, hx⟩⟩
    rw [List.filter_congr hped]
    have hmem : cid ∈ PolicyChunker.assignedCriteriaIds p'.id p'.criteria 1 := by
      show cid ∈ PolicyChunker.assignedCriteriaIds p.id
        (p.criteria.set i newCrit) 1
      rw [PolicyChunker.assignedCriteriaIds_set p.id p.criteria i 1 newCrit]
      have hidval : PolicyChunker.assignedCriteriaId p.id newCrit (1 + i) =
          cid := by rw [hcid]; rfl
      have hleng : i < (PolicyChunker.assignedCriteriaIds p.id
          p.criteria 1).length := by
        rw [PolicyChunker.assignedCriteriaIds_length]; exact h
      exact List.getElem?_mem
        (by rw [hidval] at *; exact List.getElem?_set_self hleng)
    exact PolicyChunker.chunk_policy_filter_cid_length "1.0" p' cid hids hmem
  · -- the old hash is gone from the policy's rows
    rcases reindex_shape with ⟨deleted, hdel, hresult⟩
    intro r hr _
    rw [hresult] at hr
    rcases List.mem_append.1 hr with hr' | hr'
    · intro hh
      exact hdel r hr' (by assumption)
    · rcases List.mem_map.1 hr' with ⟨c0, hc0, rfl⟩
      show c0.content_hash ≠ oldHash
      exact habsent c0 hc0

namespace RAGContextBuilder

/-- `String.intercalate.go` never shrinks its accumulator. -/
theorem intercalate_go_length (s : String) :
    ∀ (bs : List String) (acc : String),
      acc.length ≤ (String.intercalate.go acc s bs).length
  | [], acc => Nat.le_refl _
  | b :: bs, acc => by
      have step : acc.length ≤ (acc ++ s ++ b).length := by
        rw [String.length_append, String.length_append]
        omega
      exact Nat.le_trans step (intercalate_go_length s bs (acc ++ s ++ b))

/-- Joining a list whose head is non-empty yields a non-empty string. -/
theorem intercalate_cons_ne_empty (sep a : String) (rest : List String)
    (ha : a ≠ "") : String.intercalate sep (a :: rest) ≠ "" := by
  intro hcontra
  have hlen : 0 < a.length := by
    cases hA : a.data with
    | nil => exact absurd (String.ext (by rw [hA])) ha
    | cons c cs =>
        show 0 < a.data.length
        rw [hA]
        simp
  have hge := intercalate_go_length sep rest a
  rw [show String.intercalate sep (a :: rest) =
    String.intercalate.go a sep rest from rfl] at hcontra
  rw [hcontra] at hge
  have hz : ("" : String).length = 0 := rfl
  omega

/-- The assembly loop only ever appends to `context_parts`. -/
theorem assembleLoop_parts_prefix (enc : Encoding) (mt : Nat) (im : Bool)
    (style : String) :
    ∀ (rs : List SearchResult) (st : AssembleState),
      ∃ tail, (assembleLoop enc mt im style rs st).context_parts =
        st.context_parts ++ tail
  | [], st => ⟨[], by simp [assembleLoop]⟩
  | r :: rs, st => by
      unfold assembleLoop
      by_cases hturn : st.tokens_used +
          (count_tokens enc (format_chunk r im style) +
            DEFAULT_CHUNK_OVERHEAD) > mt
      · simp only [hturn, if_true]
        by_cases hrem : ((mt : Int) - st.tokens_used -
            DEFAULT_CHUNK_OVERHEAD) > 100
        · simp only [hrem, if_true]
          exact ⟨_, rfl⟩
        · simp only [hrem, if_false]
          exact ⟨[], by simp⟩
      · simp only [hturn, if_false]
        obtain ⟨tail, htail⟩ := assembleLoop_parts_prefix enc mt im style rs
          { st with
            context_parts := st.context_parts ++
              [format_chunk r im style]
            tokens_used := st.tokens_used +
              (count_tokens enc (format_chunk r im style) +
                DEFAULT_CHUNK_OVERHEAD)
            chunks_included := st.chunks_included + 1
            citations := st.citations ++ [create_citation r]
            categories_seen := st.categories_seen ++ [r.category] }
        exact ⟨[format_chunk r im style] ++ tail, by
          rw [htail]; simp⟩

/-- With a non-empty result list and the service's `structured` style,
the assembled context text is non-empty. -/
theorem assemble_context_ne_empty (enc : Encoding) (mt : Nat)
    (results : List SearchResult) (query : Option String) (im : Bool) :
    (assemble_context enc mt results query im "structured").context_text ≠
      "" := by
  by_cases hres : results = []
  · simp [assemble_context, hres]
  · have hheader : format_header query "structured" ≠ "" := by
      unfold format_header
      rw [if_neg (by decide), if_neg (by decide)]
      intro hcontra
      have hlen := congrArg String.length hcontra
      rw [String.length_append] at hlen
      have hpos :
          0 < ("### Relevant Underwriting Policy Context\n" : String).length :=
        by decide
      have hz : ("" : String).length = 0 := rfl
      omega
    unfold assemble_context
    rw [if_neg hres]
    obtain ⟨tail, htail⟩ := assembleLoop_parts_prefix enc mt im "structured"
      results
      { context_parts := [format_header query "structured"]
        tokens_used := count_tokens enc (format_header query "structured")
        chunks_included := 0
        chunks_truncated := 0
        citations := []
        categories_seen := [] }
    simp only [htail, List.singleton_append, List.cons_append]
    exact intercalate_cons_ne_empty "\n\n" _ _ hheader

/-- The loop's token counter never passes `max mt st.tokens_used` by
more than the tokenizer's truncation slack: full chunks are only added
while they fit, and the single possible truncated chunk is cut to the
remaining budget. -/
theorem assembleLoop_tokens_le (enc : Encoding) (slack : Nat)
    (hT : TruncBound enc slack) (mt : Nat) (im : Bool) (style : String) :
    ∀ (rs : List SearchResult) (st : AssembleState),
      (assembleLoop enc mt im style rs st).tokens_used ≤
        max mt st.tokens_used + slack
  | [], st => by
      simp only [assembleLoop]
      omega
  | r :: rs, st => by
      unfold assembleLoop
      by_cases hturn : st.tokens_used +
          (count_tokens enc (format_chunk r im style) +
            DEFAULT_CHUNK_OVERHEAD) > mt
      · simp only [hturn, if_true]
        by_cases hrem : ((mt : Int) - st.tokens_used -
            DEFAULT_CHUNK_OVERHEAD) > 100
        · simp only [hrem, if_true]
          have hcnt := hT (format_chunk r im style)
            ((mt : Int) - st.tokens_used - DEFAULT_CHUNK_OVERHEAD).toNat
          have hoh : DEFAULT_CHUNK_OVERHEAD = 50 := rfl
          rw [hoh] at hrem hcnt ⊢
          omega
        · simp only [hrem, if_false]
          omega
      · simp only [hturn, if_false]
        have ih := assembleLoop_tokens_le enc slack hT mt im style rs
          { st with
            context_parts := st.context_parts ++ [format_chunk r im style]
            tokens_used := st.tokens_used +
              (count_tokens enc (format_chunk r im style) +
                DEFAULT_CHUNK_OVERHEAD)
            chunks_included := st.chunks_included + 1
            citations := st.citations ++ [create_citation r]
            categories_seen := st.categories_seen ++ [r.category] }
        simp only at ih
        omega

/-- The loop truncates at most one chunk: the branch that truncates also
stops the loop. -/
theorem assembleLoop_truncated_le (enc : Encoding) (mt : Nat) (im : Bool)
    (style : String) :
    ∀ (rs : List SearchResult) (st : AssembleState),
      (assembleLoop enc mt im style rs st).chunks_truncated ≤
        st.chunks_truncated + 1
  | [], st => by
      simp only [assembleLoop]
      omega
  | r :: rs, st => by
      unfold assembleLoop
      by_cases hturn : st.tokens_used +
          (count_tokens enc (format_chunk r im style) +
            DEFAULT_CHUNK_OVERHEAD) > mt
      · simp only [hturn, if_true]
        by_cases hrem : ((mt : Int) - st.tokens_used -
            DEFAULT_CHUNK_OVERHEAD) > 100
        · simp only [hrem, if_true]
          omega
        · simp only [hrem, if_false]
          omega
      · simp only [hturn, if_false]
        have ih := assembleLoop_truncated_le enc mt im style rs
          { st with
            context_parts := st.context_parts ++ [format_chunk r im style]
            tokens_used := st.tokens_used +
              (count_tokens enc (format_chunk r im style) +
                DEFAULT_CHUNK_OVERHEAD)
            chunks_included := st.chunks_included + 1
            citations := st.citations ++ [create_citation r]
            categories_seen := st.categories_seen ++ [r.category] }
        simpa using ih

end RAGContextBuilder

/-- Every successful `queryRun` returns the context assembled (with the
`structured` style) from exactly the results it returns. -/
theorem queryRun_ok_shape (enc : Encoding) (mct : Nat) (hyb : Bool)
    (o : QueryOracle) (q : String) (c : RAGContext)
    (rs : List SearchResult) (inf : InferredContext)
    (h : RAGService.queryRun enc mct hyb o q = .ok (c, rs, inf)) :
    c = RAGContextBuilder.assemble_context enc mct rs (some q) true
      "structured" := by
  unfold RAGService.queryRun at h
  cases hI : o.init with
  | error e =>
      rw [hI] at h
      simp only [Bind.bind, Except.bind] at h
      exact Except.noConfusion h
  | ok u =>
      rw [hI] at h
      simp only [Bind.bind, Except.bind] at h
      cases hyb with
      | false =>
          rw [if_neg (by decide)] at h
          cases hInt : o.intelligent with
          | error e =>
              rw [hInt] at h
              simp only [Except.bind] at h
              exact Except.noConfusion h
          | ok pr =>
              obtain ⟨rs2, inf2⟩ := pr
              rw [hInt] at h
              simp only [Except.bind, pure, Except.pure] at h
              obtain ⟨h1, h2, h3⟩ :=
                by simpa only [Except.ok.injEq, Prod.mk.injEq] using h
              rw [← h1, h2]
      | true =>
          rw [if_pos rfl] at h
          cases hH : o.hybrid with
          | error e =>
              rw [hH] at h
              simp only [Except.bind] at h
              exact Except.noConfusion h
          | ok results =>
              rw [hH] at h
              simp only [Except.bind] at h
              by_cases hz : results = []
              · rw [if_pos hz] at h
                cases hInt : o.intelligent with
                | error e =>
                    rw [hInt] at h
                    simp only [Except.bind] at h
                    exact Except.noConfusion h
                | ok pr =>
                    obtain ⟨rs2, inf2⟩ := pr
                    rw [hInt] at h
                    simp only [Except.bind, pure, Except.pure] at h
                    obtain ⟨h1, h2, h3⟩ :=
                      by simpa only [Except.ok.injEq, Prod.mk.injEq] using h
                    rw [← h1, h2]
              · rw [if_neg hz] at h
                cases hInf : o.infer with
                | error e =>
                    rw [hInf] at h
                    simp only [Except.bind] at h
                    exact Except.noConfusion h
                | ok inf2 =>
                    rw [hInf] at h
                    simp only [Except.bind, pure, Except.pure] at h
                    obtain ⟨h1, h2, h3⟩ :=
                      by simpa only [Except.ok.injEq, Prod.mk.injEq] using h
                    rw [← h1, h2]

/-- **C2.** `RAGService.query` never raises: it is a total function of
the step outcomes, and whenever any internal step (initialization,
search, inference — the steps of `queryRun`) fails, `query` returns a
result with empty context, `used_fallback = true`, and
`fallback_reason` equal to the failure's message string. -/
theorem query_fallback_on_failure (enc : Encoding) (mct : Nat) (hyb : Bool)
    (o : QueryOracle) (q e : String)
    (h : RAGService.queryRun enc mct hyb o q = .error e) :
    RAGService.query enc mct hyb o q =
      { context := "", used_fallback := true, fallback_reason := some e } := by
  unfold RAGService.query
  rw [h]

/-- Witness for C2: a failing database initialization turns into a
fallback result carrying the exception message. -/
theorem query_fallback_on_failure_witness :
    RAGService.query byteEncoding 4000 true
      ⟨.error "database connection refused", .ok [],
        .ok ([], ⟨[], [], [], 0, "keyword"⟩), .error "x"⟩ "hypertension" =
      { context := "", used_fallback := true,
        fallback_reason := some "database connection refused" } := by
  apply query_fallback_on_failure
  rfl

/-- **C1.** For every query and non-empty caller-supplied
`fallback_context`: whenever the inner `query` used its internal
fallback or retrieved zero chunks, `query_with_fallback` substitutes
the caller-supplied context with `used_fallback = true`; and its
returned context is non-empty in every case — even when every
search/store call raises. -/
theorem query_with_fallback_nonempty (enc : Encoding) (mct : Nat)
    (hyb : Bool) (o : QueryOracle) (q fc : String) (hfc : fc ≠ "") :
    ((RAGService.query enc mct hyb o q).used_fallback = true ∨
        (RAGService.query enc mct hyb o q).chunks_retrieved = 0 →
      (RAGService.query_with_fallback enc mct hyb o q fc).context = fc ∧
        (RAGService.query_with_fallback enc mct hyb o q fc).used_fallback =
          true) ∧
    (RAGService.query_with_fallback enc mct hyb o q fc).context ≠ "" := by
  unfold RAGService.query_with_fallback
  by_cases hcond : (RAGService.query enc mct hyb o q).used_fallback = true ∨
      (RAGService.query enc mct hyb o q).chunks_retrieved = 0
  · have hbool : ((RAGService.query enc mct hyb o q).used_fallback ||
        ((RAGService.query enc mct hyb o q).chunks_retrieved == 0)) = true := by
      rcases hcond with hc | hc
      · simp [hc]
      · simp [hc]
    rw [if_pos hbool]
    exact ⟨fun _ => ⟨rfl, rfl⟩, hfc⟩
  · have hbool : ¬ (((RAGService.query enc mct hyb o q).used_fallback ||
        ((RAGService.query enc mct hyb o q).chunks_retrieved == 0)) = true) := by
      simp only [Bool.or_eq_true, beq_iff_eq]
      intro hc
      rcases hc with hc | hc
      · exact hcond (.inl hc)
      · exact hcond (.inr hc)
    rw [if_neg hbool]
    refine ⟨fun hc => absurd hc hcond, ?_⟩
    cases hrun : RAGService.queryRun enc mct hyb o q with
    | error e =>
        exfalso
        apply hcond
        left
        unfold RAGService.query
        rw [hrun]
    | ok t =>
        obtain ⟨c, rs, inf⟩ := t
        have hc : RAGService.query enc mct hyb o q =
            { context := c.context_text
              rag_context := some c
              inferred := some inf
              results := rs
              chunks_retrieved := rs.length
              tokens_used := c.total_tokens
              used_fallback := false } := by
          unfold RAGService.query
          rw [hrun]
        rw [hc]
        show c.context_text ≠ ""
        rw [queryRun_ok_shape enc mct hyb o q c rs inf hrun]
        exact RAGContextBuilder.assemble_context_ne_empty enc mct rs (some q)
          true

/-- Witness for C1: with a failing store and a non-empty caller default,
the caller default is returned with `used_fallback = true` and the
context is non-empty. -/
theorem query_with_fallback_nonempty_witness :
    (RAGService.query_with_fallback byteEncoding 4000 true
      ⟨.error "db down", .ok [], .ok ([], ⟨[], [], [], 0, "keyword"⟩),
        .error "x"⟩ "q" "FULL POLICY TEXT").context = "FULL POLICY TEXT" ∧
    (RAGService.query_with_fallback byteEncoding 4000 true
      ⟨.error "db down", .ok [], .ok ([], ⟨[], [], [], 0, "keyword"⟩),
        .error "x"⟩ "q" "FULL POLICY TEXT").context ≠ "" := by
  have h := query_with_fallback_nonempty byteEncoding 4000 true
    ⟨.error "db down", .ok [], .ok ([], ⟨[], [], [], 0, "keyword"⟩),
      .error "x"⟩ "q" "FULL POLICY TEXT" (by decide)
  exact ⟨(h.1 (.inl (by rfl))).1, h.2⟩

/-- **C3 counterexample.** The claim "total_tokens never exceeds T
except for a footer overshoot that is a documented fixed constant
(independent of the inputs)" is false: with the same budget `T = 107`,
the same style and the same tokenizer, two one-result inputs produce
totals `T + 5` and `T + 10` — the excess over the budget varies with the
input (the loop never counts the footer, and nothing bounds the
header-plus-footer cost by a constant). -/
theorem assemble_context_overshoot_not_fixed :
    (RAGContextBuilder.assemble_context byteEncoding 107
      [shortContentResult] (some "q") true "compact").total_tokens =
        107 + 5 ∧
    (RAGContextBuilder.assemble_context byteEncoding 107
      [longContentResult] (some "q") true "compact").total_tokens =
        107 + 10 := by
  decide

/-- **C3 (amended).** For every tokenizer satisfying the truncation
bound `TruncBound` (re-encoding a chunk truncated to `n` tokens costs at
most `n + slack`; the byte tokenizer has `slack = 3`), every result
list, query, style and budget `T`: the assembled `total_tokens` is at
most `max T H + slack` plus the token count of the footer built from the
included citations, where `H` is the header's token count — the
overshoot is the (input-dependent) footer cost plus the truncation
slack, not a fixed constant; and at most one chunk is truncated, because
the branch that admits a truncated chunk — taken only when more than 100
tokens of budget remain — stops the assembly loop. -/
theorem assemble_context_token_budget (enc : Encoding) (slack : Nat)
    (hT : TruncBound enc slack) (results : List SearchResult)
    (query : Option String) (im : Bool) (style : String) (T : Nat) :
    (RAGContextBuilder.assemble_context enc T results query im
        style).total_tokens ≤
      max T (RAGContextBuilder.count_tokens enc
        (RAGContextBuilder.format_header query style)) + slack +
      RAGContextBuilder.count_tokens enc
        (RAGContextBuilder.format_footer
          (RAGContextBuilder.assemble_context enc T results query im
            style).citations style) ∧
    (RAGContextBuilder.assemble_context enc T results query im
      style).chunks_truncated ≤ 1 := by
  by_cases hres : results = []
  · simp [RAGContextBuilder.assemble_context, hres]
  · unfold RAGContextBuilder.assemble_context
    simp only [if_neg hres]
    constructor
    · have hloop := RAGContextBuilder.assembleLoop_tokens_le enc slack hT T
        im style results
        { context_parts := [RAGContextBuilder.format_header query style]
          tokens_used := RAGContextBuilder.count_tokens enc
            (RAGContextBuilder.format_header query style)
          chunks_included := 0
          chunks_truncated := 0
          citations := []
          categories_seen := [] }
      simp only at hloop
      omega
    · have hloop := RAGContextBuilder.assembleLoop_truncated_le enc T im
        style results
        { context_parts := [RAGContextBuilder.format_header query style]
          tokens_used := RAGContextBuilder.count_tokens enc
            (RAGContextBuilder.format_header query style)
          chunks_included := 0
          chunks_truncated := 0
          citations := []
          categories_seen := [] }
      simpa using hloop

/-- The byte tokenizer satisfies the truncation bound with slack 3 (the
three ellipsis characters). -/
theorem byteEncoding_truncBound : TruncBound byteEncoding 3 := by
  intro text n
  unfold RAGContextBuilder.truncate_to_tokens
  by_cases hfit : (byteEncoding.encode text).length ≤ n
  · rw [if_pos hfit]
    show (byteEncoding.encode text).length ≤ n + 3
    omega
  · rw [if_neg hfit]
    show ((RAGContextBuilder.rstrip (byteEncoding.decode
      ((byteEncoding.encode text).take n)) ++ "...").data.map
        Char.toNat).length ≤ n + 3
    rw [String.data_append, List.length_map, List.length_append]
    have h1 : (RAGContextBuilder.rstrip (byteEncoding.decode
        ((byteEncoding.encode text).take n))).data.length ≤ n := by
      unfold RAGContextBuilder.rstrip
      show ((byteEncoding.decode
        ((byteEncoding.encode text).take n)).data.reverse.dropWhile
          RAGContextBuilder.pyIsSpace).reverse.length ≤ n
      calc ((byteEncoding.decode ((byteEncoding.encode
              text).take n)).data.reverse.dropWhile
            RAGContextBuilder.pyIsSpace).reverse.length
          ≤ (byteEncoding.decode ((byteEncoding.encode
              text).take n)).data.reverse.length := by
            rw [List.length_reverse]
            exact (List.dropWhile_sublist _).length_le
        _ ≤ n := by
            rw [List.length_reverse]
            show (((byteEncoding.encode text).take n).map
              Char.ofNat).length ≤ n
            rw [List.length_map]
            exact List.length_take_le _ _
    have h3 : ("..." : String).data.length = 3 := rfl
    omega

/-- Witness for the amended C3 at a concrete tokenizer and input,
hypotheses discharged by `byteEncoding_truncBound`. -/
theorem assemble_context_token_budget_witness :
    (RAGContextBuilder.assemble_context byteEncoding 107
        [shortContentResult] (some "q") true "compact").total_tokens ≤
      max 107 (RAGContextBuilder.count_tokens byteEncoding
        (RAGContextBuilder.format_header (some "q") "compact")) + 3 +
      RAGContextBuilder.count_tokens byteEncoding
        (RAGContextBuilder.format_footer
          (RAGContextBuilder.assemble_context byteEncoding 107
            [shortContentResult] (some "q") true "compact").citations
          "compact") ∧
    (RAGContextBuilder.assemble_context byteEncoding 107
      [shortContentResult] (some "q") true "compact").chunks_truncated ≤ 1 :=
  assemble_context_token_budget byteEncoding 3 byteEncoding_truncBound
    [shortContentResult] (some "q") true "compact" 107

/-- `samplePolicy` has at least one criterion. -/
theorem samplePolicy_criteria_pos : 0 < samplePolicy.criteria.length := by
  decide

set_option maxRecDepth 100000 in
/-- Witness for C9 at a concrete policy and edit: the edited criterion's
chunk hash changes (two concrete SHA-256 digests differ) and after the
forced reindex exactly one stored row carries criteria id `BP-1`. -/
theorem criterion_edit_change_detection_witness :
    ((PolicyChunker.chunk_policy "1.0" editedSamplePolicy)[1 + 0]?).map
        (·.content_hash) ≠
      ((PolicyChunker.chunk_policy "1.0" samplePolicy)[1 + 0]?).map
        (·.content_hash) ∧
    ((PolicyIndexer.reindex_policy (fun _ => []) [] [editedSamplePolicy]
        "CVD-BP-001").filter
      (fun r => decide (r.policy_id = "CVD-BP-001" ∧
        r.criteria_id = some "BP-1"))).length = 1 := by
  have hw := criterion_edit_change_detection samplePolicy 0
    samplePolicy_criteria_pos
    "systolic >= 170" editedSamplePolicy rfl "BP-1" (by decide)
    ((PolicyChunker.chunk_criteria "1.0" samplePolicy.id samplePolicy.name
      samplePolicy.category samplePolicy.subcategory
      (samplePolicy.criteria.get ⟨0, samplePolicy_criteria_pos⟩)
      (1 + 0)).content_hash) rfl
    (by decide) (by decide) (by decide)
    (fun _ => []) [] [editedSamplePolicy] (by decide)
  exact ⟨hw.2.2.1, hw.2.2.2.1⟩

/-- Every output admitted by the `ORDER BY similarity DESC LIMIT k`
contract is sorted by non-increasing similarity. -/
theorem sqlSelect_simSorted {qual : List SearchResult} {k : Nat}
    {out : List SearchResult} (h : SqlSelect qual k out) :
    simSorted out := by
  obtain ⟨l, -, hp, rfl⟩ := h
  exact List.Pairwise.sublist (List.take_sublist k l) hp

namespace PolicySearchService

/-- Membership in an `insertDesc` insertion. -/
theorem mem_insertDesc {a r : SearchResult} {l : List SearchResult} :
    a ∈ insertDesc r l ↔ a = r ∨ a ∈ l := by
  induction l with
  | nil => simp [insertDesc]
  | cons x xs ih =>
      by_cases h : x.similarity ≤ r.similarity
      · simp [insertDesc, h]
      · simp [insertDesc, h, ih]
        tauto

/-- `insertDesc` preserves the non-increasing-similarity invariant. -/
theorem pairwise_insertDesc {r : SearchResult} {l : List SearchResult}
    (h : l.Pairwise (fun a b => b.similarity ≤ a.similarity)) :
    (insertDesc r l).Pairwise (fun a b => b.similarity ≤ a.similarity) := by
  induction l with
  | nil => simp [insertDesc]
  | cons x xs ih =>
      rw [List.pairwise_cons] at h
      by_cases hle : x.similarity ≤ r.similarity
      · rw [insertDesc, if_pos hle, List.pairwise_cons]
        refine ⟨?_, List.pairwise_cons.mpr h⟩
        intro b hb
        rcases List.mem_cons.mp hb with rfl | hb
        · exact hle
        · exact le_trans (h.1 b hb) hle
      · rw [insertDesc, if_neg hle, List.pairwise_cons]
        refine ⟨?_, ih h.2⟩
        intro b hb
        rcases mem_insertDesc.mp hb with rfl | hb
        · exact le_of_lt (lt_of_not_le hle)
        · exact h.1 b hb

/-- The stable descending sort really sorts. -/
theorem simSorted_pySortDesc (l : List SearchResult) :
    simSorted (pySortDesc l) := by
  induction l with
  | nil => exact List.Pairwise.nil
  | cons x xs ih => exact pairwise_insertDesc ih

/-- The supplement-merge output is sorted by non-increasing
similarity (it re-sorts before truncating). -/
theorem simSorted_merge (k : Nat) (a b : List SearchResult) :
    simSorted (intelligent_search_merge k a b) :=
  List.Pairwise.sublist (List.take_sublist k _) (simSorted_pySortDesc _)

end PolicySearchService

/-- C7 (amended): ranking monotonicity holds — every result list the
SQL contract admits for `semantic_search`, `filtered_search`,
`hybrid_search` or ranked `search_by_policy` is sorted by
non-increasing similarity, and `intelligent_search` is sorted on every
branch whenever its two store calls honour that contract — but the
relative order of equal-similarity results is NOT determined (see the
counterexample): no query adds a tie-break key, so the spec's "ties
preserve original/sequence order deterministically" is not guaranteed
by the code. -/
theorem search_ranking_monotonic
    (qual : List SearchResult) (k : Nat) (out : List SearchResult)
    (fS : Option String → Option String → Option (List String) →
      List SearchResult)
    (semS : List SearchResult) (top_k : Nat) (q : String)
    (qualF : Option String → Option String → Option (List String) →
      List SearchResult)
    (qualS : List SearchResult)
    (h : SqlSelect qual k out)
    (hf : ∀ c s r, SqlSelect (qualF c s r) top_k (fS c s r))
    (hs : SqlSelect qualS top_k semS) :
    simSorted out ∧
    simSorted (PolicySearchService.intelligent_search fS semS top_k q).1 := by
  refine ⟨sqlSelect_simSorted h, ?_⟩
  simp only [PolicySearchService.intelligent_search]
  split_ifs <;> first
    | exact PolicySearchService.simSorted_merge _ _ _
    | exact sqlSelect_simSorted (hf _ _ _)
    | exact sqlSelect_simSorted hs

/-- Witness for C7 at concrete inputs: a singleton select output and an
`intelligent_search` run over concrete store oracles are sorted. -/
theorem search_ranking_monotonic_witness :
    simSorted [rowA] ∧
    simSorted (PolicySearchService.intelligent_search
      (fun _ _ _ => [rowA]) [] 1 "x").1 :=
  search_ranking_monotonic [rowA] 1 [rowA] (fun _ _ _ => [rowA]) [] 1 "x"
    (fun _ _ _ => [rowA]) []
    ⟨[rowA], .refl _, by simp, rfl⟩
    (fun c s r => ⟨[rowA], .refl _, by simp, rfl⟩)
    ⟨[], .refl _, by simp, rfl⟩

/-- C7 counterexample: for two distinct qualifying rows of equal
similarity, the `ORDER BY similarity DESC LIMIT 2` contract admits both
output orders — none of the search queries has a tie-break sort key, so
the order of equal-similarity results is not deterministic. -/
theorem sql_select_tie_order_ambiguous :
    SqlSelect [rowA, rowB] 2 [rowA, rowB] ∧
    SqlSelect [rowA, rowB] 2 [rowB, rowA] ∧
    [rowA, rowB] ≠ [rowB, rowA] := by
  refine ⟨⟨[rowA, rowB], .refl _, ?_, rfl⟩,
    ⟨[rowB, rowA], .swap _ _ _, ?_, rfl⟩, ?_⟩
  · simp [List.pairwise_cons, rowA, rowB]
  · simp [List.pairwise_cons, rowA, rowB]
  · simp [rowA, rowB]

set_option maxHeartbeats 4000000 in
/-- C4: refuted as stated — on the query
`"heart diabetes glucose insulin hba1c"` the inferred filters clear
the 0.3 confidence gate and the keyword hit counts are
cardiovascular: 1, metabolic: 3, endocrine: 4, yet `intelligent_search`
asks the store for category `"cardiovascular"` (the first matched
category in the table's fixed order), not `"endocrine"`, the category
with the greatest number of keyword-pattern hits that the claim (and
the code's own comment) prescribe. -/
theorem intelligent_search_first_category_not_max :
    CategoryInference.category_match_scores divergingQuery =
      [("cardiovascular", 1), ("metabolic", 3), ("endocrine", 4)] ∧
    (CategoryInference.infer_from_keywords divergingQuery).has_filters =
      true ∧
    (3 / 10 : ℚ) ≤
      (CategoryInference.infer_from_keywords divergingQuery).confidence ∧
    (PolicySearchService.intelligent_search tagOracle [] 2
      divergingQuery).1 = [tagRow (some "cardiovascular")] ∧
    (∀ p ∈ CategoryInference.category_match_scores divergingQuery,
      p.2 ≤ 4) ∧
    ("endocrine", 4) ∈
      CategoryInference.category_match_scores divergingQuery ∧
    ("cardiovascular", 1) ∈
      CategoryInference.category_match_scores divergingQuery := by
  have hscores : CategoryInference.category_match_scores divergingQuery =
      [("cardiovascular", 1), ("metabolic", 3), ("endocrine", 4)] := by
    decide
  have hcats :
      (CategoryInference.infer_from_keywords divergingQuery).categories =
        ["cardiovascular", "metabolic", "endocrine"] := by decide
  have hfilt :
      (CategoryInference.infer_from_keywords divergingQuery).has_filters =
        true := by decide
  have hconf :
      (CategoryInference.infer_from_keywords divergingQuery).confidence =
        1 := by
    simp only [CategoryInference.infer_from_keywords, hscores]
    norm_num [min_def]
  refine ⟨hscores, hfilt, by rw [hconf]; norm_num, ?_, by decide,
    by decide, by decide⟩
  simp only [PolicySearchService.intelligent_search, tagOracle]
  rw [if_pos ⟨hfilt, by rw [hconf]; norm_num⟩]
  rw [if_neg (by norm_num)]
  rw [hcats]
  rfl

end WorkbenchIQ
